import Mathlib

/-!
# Stop-and-Wait ARQ simulator (script.js): shallow embedding

The simulator keeps its protocol state in module-level variables and mutates
them from asynchronous handlers.  Every handler runs on the single JavaScript
control thread, so the code between two `await`s is one atomic step.  The
embedding has two layers.

* Layer 1 (`State` and the handler functions): the module-level variables and
  the synchronous segment of each handler, as a pure function on `State`.  What
  the handler does next (which continuation it leaves behind) is returned next
  to the new state.
* Layer 2 (`Sys`, `Event`, `step`): the variables together with the pending
  continuations of the event loop of one run: frames and ACKs in transit, the
  armed timer, `handleTimeout` calls in their grace delay, and scheduled
  `sendFrame` calls.  A run starts with nothing pending.

Presentation code (logging, DOM updates, sound, animation geometry) does not
touch the protocol variables and is left out.  The outcome of each comparison
`Math.random() < P` is an input of the step that draws it.
-/

namespace StopAndWait

/-- The record `stats` of script.js (lines 66-74). Times are milliseconds. -/
structure Stats where
  totalTransmissions : Nat
  retransmissions : Nat
  framesLost : Nat
  acksLost : Nat
  successfulDeliveries : Nat
  startTime : Option Nat
  endTime : Option Nat
  deriving DecidableEq, Repr

/-- The frame object `{ seq, data, txId }` that `sendFrame` passes to
`receiveFrame` (line 374). The payload string `Data-k` is represented by the
number `k`. -/
structure Frame where
  seq : Int
  data : Nat
  txId : Nat
  deriving DecidableEq, Repr

/-- The module-level simulation variables of script.js (lines 42-74).
`timeoutId` holds the handle of the last `setTimeout` made by `sendFrame`; a
handle is identified with the transaction id its callback carries. -/
structure State where
  senderSeq : Int
  receiverExpectedSeq : Int
  activeTxSeq : Option Int
  isNoisy : Bool
  timeoutId : Option Nat
  currentTxId : Nat
  timeoutExpired : Bool
  lastAckTxIdHandled : Nat
  simulationRunning : Bool
  simulationPaused : Bool
  stepMode : Bool
  awaitingNextStep : Bool
  waitingForAck : Bool
  dataToSend : List Nat
  dataIndex : Nat
  stats : Stats
  deriving DecidableEq, Repr

/-- The object literal assigned to `stats` at load time and in `resetState`. -/
def emptyStats : Stats :=
  { totalTransmissions := 0, retransmissions := 0, framesLost := 0, acksLost := 0,
    successfulDeliveries := 0, startTime := none, endTime := none }

/-- The values of the variables when the script has been loaded (lines 42-74). -/
def initState : State :=
  { senderSeq := 0, receiverExpectedSeq := 0, activeTxSeq := none, isNoisy := false,
    timeoutId := none, currentTxId := 0, timeoutExpired := false, lastAckTxIdHandled := 0,
    simulationRunning := false, simulationPaused := false, stepMode := false,
    awaitingNextStep := false, waitingForAck := false, dataToSend := [], dataIndex := 0,
    stats := emptyStats }

/-- `resetState` (lines 120-158). Every variable but `isNoisy` is overwritten. -/
def resetState (s : State) : State :=
  { senderSeq := 0, receiverExpectedSeq := 0, activeTxSeq := none, isNoisy := s.isNoisy,
    timeoutId := none, currentTxId := 0, timeoutExpired := false, lastAckTxIdHandled := 0,
    simulationRunning := false, simulationPaused := false, stepMode := false,
    awaitingNextStep := false, waitingForAck := false, dataToSend := [], dataIndex := 0,
    stats := emptyStats }

/-- `finishSimulation` (lines 451-477); `now` is the value of `Date.now()`. The
derived figures (duration, efficiency, goodput) are only displayed. -/
def finishSimulation (now : Nat) (s : State) : State :=
  { s with simulationRunning := false, stats := { s.stats with endTime := some now } }

/-- The values `startSimulation` reads from the page: `parseInt` of the frame
count field (`none` for NaN) and the step mode checkbox. -/
structure Inputs where
  numFrames : Option Int
  stepModeChecked : Bool
  deriving DecidableEq, Repr

/-- `startSimulation(noisyMode)` (lines 316-336) up to its last line. The
Boolean tells whether that last line calls `sendFrame()`. For a frame count
above `2^32 - 1` the call `Array.from({ length: frameCount }, ...)` of line 322
throws a `RangeError`: the function ends there, after `resetState(false)`, and
no run starts. -/
def startSimulation (noisyMode : Bool) (inp : Inputs) (now : Nat) (s : State) : State × Bool :=
  if s.simulationRunning = true then (s, false)
  else
    let s1 := resetState s
    match inp.numFrames with
    | none => (s1, false)
    | some frameCount =>
      if frameCount ≤ 0 then (s1, false)
      else if frameCount > 4294967295 then (s1, false)
      else
        ({ s1 with
            dataToSend := (List.range frameCount.toNat).map (fun i => i + 1),
            simulationRunning := true,
            isNoisy := noisyMode,
            stepMode := inp.stepModeChecked,
            awaitingNextStep := inp.stepModeChecked,
            waitingForAck := false,
            stats := { s1.stats with startTime := some now } },
          !inp.stepModeChecked)

/-- How a call of `sendFrame` ends its synchronous segment. -/
inductive SendResult where
  | skipped
  | finished
  | sent (data : Nat) (txId : Nat) (frameLost : Bool)
  deriving DecidableEq, Repr

/-- `sendFrame(isRetransmit)` (lines 338-375) up to `await animateMessage`.
`u` is the outcome of `Math.random() < FRAME_LOSS_PROBABILITY`. `sent data txId
frameLost` carries the constants `data` and `txId` of the call. After
`sent data txId true` the handler returns when the animation has ended; after
`sent data txId false` it then builds the frame (`arrivedFrame`) and calls
`receiveFrame`. -/
def sendFrame (isRetransmit : Bool) (u : Bool) (now : Nat) (s : State) : State × SendResult :=
  if s.simulationRunning = false then (s, .skipped)
  else if s.waitingForAck = true ∧ isRetransmit = false then (s, .skipped)
  else if s.dataIndex ≥ s.dataToSend.length then (finishSimulation now s, .finished)
  else
    let data := s.dataToSend.getD s.dataIndex 0
    let txId := s.currentTxId + 1
    let frameLost := s.isNoisy && u
    ({ s with
        stats := { s.stats with
          totalTransmissions := s.stats.totalTransmissions + 1,
          retransmissions :=
            if isRetransmit = true then s.stats.retransmissions + 1 else s.stats.retransmissions,
          framesLost := if frameLost = true then s.stats.framesLost + 1 else s.stats.framesLost },
        currentTxId := txId,
        activeTxSeq := some s.senderSeq,
        waitingForAck := true,
        timeoutExpired := false,
        timeoutId := some txId },
      .sent data txId frameLost)

/-- The object literal `{ seq: senderSeq, data, txId }` of line 374. It is
evaluated after `await animateMessage` has resolved, so `seq` is the value
`senderSeq` has when the animation of the frame has ended, while `data` and
`txId` are the constants of the `sendFrame` call. -/
def arrivedFrame (data txId : Nat) (s : State) : Frame :=
  { seq := s.senderSeq, data := data, txId := txId }

/-- `receiveFrame(frame)` (lines 377-392) after its `delay(200)`. The second
component is the number passed to `sendAck`. -/
def receiveFrame (frame : Frame) (s : State) : State × Int :=
  if frame.seq = s.receiverExpectedSeq then
    ({ s with
        receiverExpectedSeq := 1 - s.receiverExpectedSeq,
        stats := { s.stats with successfulDeliveries := s.stats.successfulDeliveries + 1 } },
      frame.seq)
  else
    (s, 1 - s.receiverExpectedSeq)

/-- `sendAck(ackNum)` (lines 394-403) up to `await animateMessage`. `u` is the
outcome of `Math.random() < ACK_LOSS_PROBABILITY`. `some a` means the handler
goes on to `receiveAck(a)`; `none` means the ACK is lost. -/
def sendAck (ackNum : Int) (u : Bool) (s : State) : State × Option Int :=
  if (s.isNoisy && u) = true then
    ({ s with stats := { s.stats with acksLost := s.stats.acksLost + 1 } }, none)
  else
    (s, some ackNum)

/-- How a call of `receiveAck` ends. -/
inductive AckResult where
  | notRunning
  | lateOrInvalid
  | afterTimeout
  | finished
  | awaitStep
  | scheduled
  deriving DecidableEq, Repr

/-- `receiveAck(ackNum)` (lines 405-449). `scheduled` means the 400 ms
callback that may call `sendFrame()` has been set. -/
def receiveAck (ackNum : Int) (now : Nat) (s : State) : State × AckResult :=
  if s.simulationRunning = false then (s, .notRunning)
  else if s.activeTxSeq ≠ some ackNum ∨ s.currentTxId ≤ s.lastAckTxIdHandled then
    (s, .lateOrInvalid)
  else if s.timeoutExpired = true then (s, .afterTimeout)
  else
    let s1 : State :=
      { s with
        lastAckTxIdHandled := s.currentTxId,
        timeoutId := none,
        waitingForAck := false,
        activeTxSeq := none,
        timeoutExpired := false,
        senderSeq := 1 - s.senderSeq,
        dataIndex := s.dataIndex + 1 }
    if s1.dataIndex ≥ s1.dataToSend.length then (finishSimulation now s1, .finished)
    else if s1.stepMode = true then ({ s1 with awaitingNextStep := true }, .awaitStep)
    else (s1, .scheduled)

/-- `receiveAck` with the transaction-id test `currentTxId <= lastAckTxIdHandled`
taken out of the first guard; used to state that the test never decides. -/
def receiveAckBitOnly (ackNum : Int) (now : Nat) (s : State) : State × AckResult :=
  if s.simulationRunning = false then (s, .notRunning)
  else if s.activeTxSeq ≠ some ackNum then (s, .lateOrInvalid)
  else if s.timeoutExpired = true then (s, .afterTimeout)
  else
    let s1 : State :=
      { s with
        lastAckTxIdHandled := s.currentTxId,
        timeoutId := none,
        waitingForAck := false,
        activeTxSeq := none,
        timeoutExpired := false,
        senderSeq := 1 - s.senderSeq,
        dataIndex := s.dataIndex + 1 }
    if s1.dataIndex ≥ s1.dataToSend.length then (finishSimulation now s1, .finished)
    else if s1.stepMode = true then ({ s1 with awaitingNextStep := true }, .awaitStep)
    else (s1, .scheduled)

/-- `handleTimeout(txId)` (lines 298-313) after its grace `delay(100)` and up
to the next `await`. The Boolean tells whether the handler goes on to
`sendFrame(true)`. -/
def handleTimeout (txId : Nat) (s : State) : State × Bool :=
  if s.simulationRunning = false ∨ txId ≠ s.currentTxId ∨ s.waitingForAck = false then
    (s, false)
  else
    ({ s with
        timeoutExpired := true,
        stats := { s.stats with retransmissions := s.stats.retransmissions + 1 } },
      true)

/-- The click handler of the pause button (lines 482-486). -/
def pauseClick (s : State) : State :=
  if s.simulationRunning = false then s
  else { s with simulationPaused := !s.simulationPaused }

/-! ## Layer 1: sequences of handler calls -/

/-- A call of one of the five event handlers, with its arguments and the
random outcome it draws. -/
inductive Handler where
  | sendFrame (isRetransmit : Bool) (u : Bool) (now : Nat)
  | receiveFrame (frame : Frame)
  | sendAck (ackNum : Int) (u : Bool)
  | receiveAck (ackNum : Int) (now : Nat)
  | handleTimeout (txId : Nat)
  deriving DecidableEq, Repr

/-- The state after a handler call. -/
def Handler.apply : Handler → State → State
  | .sendFrame r u now, s => (StopAndWait.sendFrame r u now s).1
  | .receiveFrame f, s => (StopAndWait.receiveFrame f s).1
  | .sendAck a u, s => (StopAndWait.sendAck a u s).1
  | .receiveAck a now, s => (StopAndWait.receiveAck a now s).1
  | .handleTimeout t, s => (StopAndWait.handleTimeout t s).1

/-- The transaction id a handler call tags its frame with: the constant `txId`
of a `sendFrame` call that passes its guards. -/
def Handler.sentTxId : Handler → State → Option Nat
  | .sendFrame r u now, s =>
    match (StopAndWait.sendFrame r u now s).2 with
    | SendResult.sent _ t _ => some t
    | _ => none
  | _, _ => none

/-- The transaction ids of the frames transmitted during a sequence of handler
calls, oldest first. -/
def sentTxIds : List Handler → State → List Nat
  | [], _ => []
  | h :: hs, s =>
    match h.sentTxId s with
    | some t => t :: sentTxIds hs (h.apply s)
    | none => sentTxIds hs (h.apply s)

/-- A call of any function that writes the simulation variables. -/
inductive Call where
  | handler (h : Handler)
  | resetState
  | startSimulation (noisyMode : Bool) (inp : Inputs) (now : Nat)
  | finishSimulation (now : Nat)
  | pauseClick
  deriving DecidableEq, Repr

/-- The state after a call. -/
def Call.apply : Call → State → State
  | .handler h, s => h.apply s
  | .resetState, s => StopAndWait.resetState s
  | .startSimulation noisy inp now, s => (StopAndWait.startSimulation noisy inp now s).1
  | .finishSimulation now, s => StopAndWait.finishSimulation now s
  | .pauseClick, s => StopAndWait.pauseClick s

/-- The state after a sequence of calls. -/
def runCalls : List Call → State → State
  | [], s => s
  | c :: cs, s => runCalls cs (c.apply s)

/-- The three facts about the transaction bookkeeping that hold in every
reachable state. -/
def TxInv (s : State) : Prop :=
  s.lastAckTxIdHandled ≤ s.currentTxId ∧
  (s.waitingForAck = true ↔ s.activeTxSeq ≠ none) ∧
  (s.activeTxSeq ≠ none → s.currentTxId > s.lastAckTxIdHandled)

/-! ## Layer 2: the variables together with the pending continuations -/

/-- The simulation variables and what the event loop of the run still holds.

* `flying`: the constants `(data, txId)` of the `sendFrame` calls that wait in
  `await animateMessage` with a frame that is not lost, oldest first.
* `frames`: frames passed to `receiveFrame` whose body has not run yet (they
  wait in `delay(200)`), oldest first.
* `acks`: numbers passed to `sendAck` whose `receiveAck` has not run yet,
  oldest first.
* `timer`: the armed `setTimeout(() => handleTimeout(txId), timeoutMs)`.
* `graces`: `handleTimeout(txId)` calls inside their `delay(100)`.
* `retx`: accepted `handleTimeout` calls that have not reached their
  `sendFrame(true)` yet.
* `autos`: pending 400 ms callbacks set by `receiveAck`.

Every frame waits the same time in each stage (`delay(30)` and one animation,
then `delay(200)`), and so does every ACK (`delay(30)` and one animation), so
each stage is left in the order it was entered. -/
structure Sys where
  g : State
  flying : List (Nat × Nat)
  frames : List Frame
  acks : List Int
  timer : Option Nat
  graces : List Nat
  retx : Nat
  autos : Nat
  deriving DecidableEq, Repr

/-- What can happen next during a run. -/
inductive Event where
  | frameArrive
  | deliverFrame (u : Bool)
  | deliverAck (now : Nat)
  | timerFire
  | graceDone (txId : Nat)
  | retransmit (u : Bool) (now : Nat)
  | autoAdvance (u : Bool) (now : Nat)
  | nextStep (u : Bool) (now : Nat)
  deriving DecidableEq, Repr

/-- A call of `sendFrame` together with what it leaves behind: the armed
timer (line 366-367, and line 453 when the run finishes) and, unless the frame
is lost, the pending rest of the call. -/
def Sys.send (isRetransmit : Bool) (u : Bool) (now : Nat) (σ : Sys) : Sys :=
  match sendFrame isRetransmit u now σ.g with
  | (g1, .skipped) => { σ with g := g1 }
  | (g1, .finished) => { σ with g := g1, timer := none }
  | (g1, .sent d t lost) =>
    { σ with g := g1, timer := some t,
             flying := if lost = true then σ.flying else σ.flying ++ [(d, t)] }

/-- One step of the event loop; `none` when the event is not pending.

* `frameArrive`: the animation of the oldest flying frame has ended; line 374
  builds the frame object and calls `receiveFrame`, which starts its
  `delay(200)`.
* `deliverFrame u`: the oldest frame in `receiveFrame` reaches the body, which
  calls `sendAck` (random outcome `u`).
* `deliverAck now`: the oldest ACK in transit reaches `receiveAck`.
* `timerFire`: the armed timer calls `handleTimeout`, which starts its grace
  delay.
* `graceDone t`: `handleTimeout(t)` is past its grace delay and tests its guard.
* `retransmit u now`: an accepted `handleTimeout` reaches `sendFrame(true)`.
* `autoAdvance u now`: the 400 ms callback of `receiveAck` runs (lines 444-447).
* `nextStep u now`: a click on the next step button (lines 488-495).

A click on the pause button stretches the pending delays and is not an event
of this layer. -/
def step (e : Event) (σ : Sys) : Option Sys :=
  match e with
  | .frameArrive =>
    match σ.flying with
    | [] => none
    | (d, t) :: rest =>
      some { σ with flying := rest, frames := σ.frames ++ [arrivedFrame d t σ.g] }
  | .deliverFrame u =>
    match σ.frames with
    | [] => none
    | f :: fs =>
      let r := receiveFrame f σ.g
      let a := sendAck r.2 u r.1
      some { σ with g := a.1, frames := fs,
                    acks := match a.2 with
                            | some k => σ.acks ++ [k]
                            | none => σ.acks }
  | .deliverAck now =>
    match σ.acks with
    | [] => none
    | a :: rest =>
      let r := receiveAck a now σ.g
      some { σ with g := r.1, acks := rest,
                    timer := match r.2 with
                             | .finished => none
                             | .awaitStep => none
                             | .scheduled => none
                             | _ => σ.timer,
                    autos := if r.2 = .scheduled then σ.autos + 1 else σ.autos }
  | .timerFire =>
    match σ.timer with
    | none => none
    | some t => some { σ with timer := none, graces := t :: σ.graces }
  | .graceDone t =>
    if t ∈ σ.graces then
      let r := handleTimeout t σ.g
      some { σ with g := r.1, graces := σ.graces.erase t,
                    retx := if r.2 = true then σ.retx + 1 else σ.retx }
    else none
  | .retransmit u now =>
    if σ.retx = 0 then none
    else some (Sys.send true u now { σ with retx := σ.retx - 1 })
  | .autoAdvance u now =>
    if σ.autos = 0 then none
    else
      let σ1 : Sys := { σ with autos := σ.autos - 1 }
      if σ.g.simulationPaused = false ∧ σ.g.simulationRunning = true ∧
          σ.g.waitingForAck = false ∧ σ.g.activeTxSeq = none then
        some (Sys.send false u now σ1)
      else some σ1
  | .nextStep u now =>
    if σ.g.simulationRunning = false ∨ σ.g.stepMode = false then some σ
    else if σ.g.awaitingNextStep = true then
      some (Sys.send false u now { σ with g := { σ.g with awaitingNextStep := false } })
    else some σ

/-- The system after a sequence of events; `none` when one of them was not
pending at its turn. -/
def exec : List Event → Sys → Option Sys
  | [], σ => some σ
  | e :: es, σ =>
    match step e σ with
    | some σ1 => exec es σ1
    | none => none

/-- The page right after the script was loaded: the initial variables and
nothing pending. -/
def bootSys : Sys :=
  { g := initState, flying := [], frames := [], acks := [], timer := none, graces := [],
    retx := 0, autos := 0 }

/-- A click on the reset button (line 487): `resetState` writes the variables
and clears the timeout timer (line 127); every other pending completion of the
run stays in the event loop. -/
def resetClick (σ : Sys) : Sys :=
  { σ with g := resetState σ.g, timer := none }

/-- A click on a start button while the event loop holds what `σ` holds:
`startSimulation(noisyMode)` and, outside step mode, its first `sendFrame()`
(random outcome `u`). When the simulation is not running, the `resetState(false)`
inside `startSimulation` clears the timeout timer (line 127); frames, ACKs,
`handleTimeout` calls and scheduled sends that are still pending stay pending. -/
def startSys (noisyMode : Bool) (inp : Inputs) (u : Bool) (now : Nat) (σ : Sys) : Sys :=
  let r := startSimulation noisyMode inp now σ.g
  let σ1 : Sys :=
    { σ with g := r.1, timer := if σ.g.simulationRunning = true then σ.timer else none }
  if r.2 = true then Sys.send false u now σ1 else σ1

/-- Nothing of an earlier run is pending: no flying frame, no frame in
`receiveFrame`, no ACK in transit, no `handleTimeout` call in its grace delay
or before its `sendFrame(true)`, no 400 ms callback. -/
def Sys.nothingPending (σ : Sys) : Prop :=
  σ.flying = [] ∧ σ.frames = [] ∧ σ.acks = [] ∧ σ.graces = [] ∧ σ.retx = 0 ∧ σ.autos = 0

/-- Whether nothing is pending can be computed. -/
instance Sys.decNothingPending (σ : Sys) : Decidable σ.nothingPending := by
  unfold Sys.nothingPending
  infer_instance

/-- Whether the event draws no loss: its random outcome is `false`. -/
def Event.lossFree : Event → Bool
  | .deliverFrame u => !u
  | .retransmit u _ => !u
  | .autoAdvance u _ => !u
  | .nextStep u _ => !u
  | _ => true

/-- Whether no `handleTimeout` passes its guard along the events. -/
def timeoutsRejected : List Event → Sys → Bool
  | [], _ => true
  | e :: es, σ =>
    (match e with
     | .graceDone t => !(handleTimeout t σ.g).2
     | _ => true) &&
    (match step e σ with
     | some σ1 => timeoutsRejected es σ1
     | none => true)

/-- A list that is a block of `a` followed by a block of `b`. -/
def TwoPhase (a b : Int) (l : List Int) : Prop :=
  ∃ l1 l2, l = l1 ++ l2 ∧ (∀ x ∈ l1, x = a) ∧ (∀ x ∈ l2, x = b)

/-- The alternating-bit invariant of a run of `n` frames, over the values it
reads: sender bit `s`, receiver bit `r`, `activeTxSeq`, `waitingForAck`,
`simulationRunning`, the length of `dataToSend`, `dataIndex`,
`successfulDeliveries`, the bits of the frames in `receiveFrame` and the ACKs
in transit.

Either both bits agree (`r = s`): then the frames in `receiveFrame` are frames
with the other bit followed by frames with the sender bit, every ACK in transit
carries the other bit, and `successfulDeliveries = dataIndex`.  Or the receiver
is one toggle ahead (`r = 1 - s`): then every frame in `receiveFrame` carries
the sender bit, the ACKs in transit are ACKs of the other bit followed by ACKs
of the sender bit, and `successfulDeliveries = dataIndex + 1`. -/
def AbpCore (n : Nat) (s r : Int) (act : Option Int) (w run : Bool)
    (len idx del : Nat) (fs acks : List Int) : Prop :=
  act = (if w = true then some s else none) ∧
  len = n ∧
  (run = true → idx < n) ∧
  (run = false → idx = n) ∧
  ((r = s ∧ TwoPhase (1 - s) s fs ∧ (∀ a ∈ acks, a = 1 - s) ∧ del = idx)
    ∨
    (r = 1 - s ∧ (∀ f ∈ fs, f = s) ∧ TwoPhase (1 - s) s acks ∧ del = idx + 1))

/-- The alternating-bit invariant of a system in a run of `n` frames. -/
def AbpInv (n : Nat) (σ : Sys) : Prop :=
  AbpCore n σ.g.senderSeq σ.g.receiverExpectedSeq σ.g.activeTxSeq σ.g.waitingForAck
    σ.g.simulationRunning σ.g.dataToSend.length σ.g.dataIndex
    σ.g.stats.successfulDeliveries (σ.frames.map Frame.seq) σ.acks

/-- The invariant of a run of `n` frames in which no timeout has been accepted,
over the values it reads: sender bit `s`, receiver bit `r`, `activeTxSeq`,
`waitingForAck`, `simulationRunning`, `lastAckTxIdHandled`, `currentTxId`, the
length of `dataToSend`, `dataIndex`, the counters `successfulDeliveries`,
`totalTransmissions`, `retransmissions`, the number of pending retransmissions,
the number of flying frames, the bits of the frames in `receiveFrame` and the
ACKs in transit.

Nothing was retransmitted. While the sender is idle nothing is in transit, both
bits agree and every counter equals `dataIndex`. While it waits, one frame was
transmitted beyond `dataIndex`, and at most one message is in transit: the
frame (flying, or in `receiveFrame` with the sender bit) before the receiver
took it, or its ACK afterwards. -/
def QuietCore (n : Nat) (s r : Int) (act : Option Int) (w run : Bool)
    (last cur len idx del tot rex retx fl : Nat) (fs acks : List Int) : Prop :=
  retx = 0 ∧ rex = 0 ∧ len = n ∧ last ≤ cur ∧
  (run = true → idx < n) ∧
  (run = false → idx = n ∧ w = false) ∧
  ((w = false ∧ act = none ∧ fl = 0 ∧ fs = [] ∧ acks = [] ∧ r = s ∧ tot = idx ∧ del = idx)
    ∨
    (w = true ∧ act = some s ∧ last < cur ∧ tot = idx + 1 ∧
      ((r = s ∧ del = idx ∧ acks = [] ∧
          ((fl = 0 ∧ fs = []) ∨ (fl = 1 ∧ fs = []) ∨ (fl = 0 ∧ fs = [s])))
        ∨
        (r = 1 - s ∧ del = idx + 1 ∧ fl = 0 ∧ fs = [] ∧ (acks = [] ∨ acks = [s])))))

/-- The invariant of a system in a run of `n` frames without accepted timeout. -/
def QuietInv (n : Nat) (σ : Sys) : Prop :=
  QuietCore n σ.g.senderSeq σ.g.receiverExpectedSeq σ.g.activeTxSeq σ.g.waitingForAck
    σ.g.simulationRunning σ.g.lastAckTxIdHandled σ.g.currentTxId σ.g.dataToSend.length
    σ.g.dataIndex σ.g.stats.successfulDeliveries σ.g.stats.totalTransmissions
    σ.g.stats.retransmissions σ.retx σ.flying.length (σ.frames.map Frame.seq) σ.acks

/-- Whether a result of `receiveAck` is an acceptance (the sender state was
advanced). -/
def AckResult.accepted : AckResult → Bool
  | .finished => true
  | .awaitStep => true
  | .scheduled => true
  | _ => false

/-! ## Concrete states used to evaluate the code -/

/-- The variables after `startSimulation(false)` with 2 frames, continuous mode. -/
def demoStart : State :=
  (startSimulation false { numFrames := some 2, stepModeChecked := false } 0 initState).1

/-- The variables after the first `sendFrame()` of that run (transaction 1). -/
def demoSent : State := (sendFrame false false 0 demoStart).1

/-- The frame of transaction 1 in that run. -/
def demoFrame : Frame := { seq := 0, data := 1, txId := 1 }

/-- The variables after `handleTimeout(1)` was accepted and its
`sendFrame(true)` has transmitted (transaction 2). -/
def demoResent : State := (sendFrame true false 0 (handleTimeout 1 demoSent).1).1

/-- The variables of a noisy run of 2 frames after its first `sendFrame()`. -/
def demoNoisySent : State :=
  (sendFrame false false 0
    (startSimulation true { numFrames := some 2, stepModeChecked := false } 0 initState).1).1

/-- The run of 2 frames right after `startSimulation(false)` and its first
`sendFrame()`: frame 1 is in transit and its timer is armed. -/
def demoSys : Sys :=
  startSys false { numFrames := some 2, stepModeChecked := false } false 0 bootSys

/-- A schedule of that run with timeout factor 0.5 and animations of 1600 ms:
the timer of transaction 1 fires (1440 ms), `handleTimeout(1)` is accepted
(1540 ms), frame 1 arrives (1630 ms) and is taken by the receiver (1830 ms), the
retransmission arms transaction 2 (2873 ms), and then the ACK of frame 1
reaches `receiveAck` (3460 ms). -/
def lateAckSchedule : List Event :=
  [.timerFire, .graceDone 1, .frameArrive, .deliverFrame false, .retransmit false 0,
   .deliverAck 0]

/-- A schedule of that run with timeout factor 0.5 and animations of 300 ms:
the timer of transaction 1 fires (270 ms), frame 1 arrives (330 ms),
`handleTimeout(1)` is accepted (370 ms), the receiver takes frame 1 (530 ms),
the retransmission is sent (620 ms), the ACK of frame 1 is accepted (860 ms),
the animation of the retransmission ends (950 ms) and the receiver handles it
(1150 ms), before the 400 ms callback of `receiveAck` sends frame 2 (1260 ms). -/
def staleBitSchedule : List Event :=
  [.timerFire, .frameArrive, .graceDone 1, .deliverFrame false, .retransmit false 0,
   .deliverAck 0, .frameArrive, .deliverFrame false]

/-- Scenario A of the specification: a noiseless run of 3 frames right after
`startSimulation(false)` and its first `sendFrame()`. -/
def scenarioASys : Sys :=
  startSys false { numFrames := some 3, stepModeChecked := false } false 0 bootSys

/-- The schedule of scenario A up to its last ACK: every frame and ACK arrives,
every 400 ms callback sends the next frame, no timer fires. -/
def scenarioA : List Event :=
  [.frameArrive, .deliverFrame false, .deliverAck 0, .autoAdvance false 0,
   .frameArrive, .deliverFrame false, .deliverAck 0, .autoAdvance false 0,
   .frameArrive, .deliverFrame false]

/-- The system of scenario A while the ACK of frame 3 is in transit. -/
def scenarioALast : Sys := (exec scenarioA scenarioASys).getD scenarioASys

/-- The system of scenario A when the ACK of frame 3 has reached `receiveAck`,
which calls `finishSimulation`. -/
def scenarioAEnd : Sys := (step (.deliverAck 0) scenarioALast).getD scenarioALast

/-- A noiseless run of 1 frame right after `startSimulation(false)` and its
first `sendFrame()`. -/
def oneFrameSys : Sys :=
  startSys false { numFrames := some 1, stepModeChecked := false } false 0 bootSys

/-- A schedule without any loss in which the timer of transaction 1 expires
before the ACK of frame 1 is back (timeout factor 0.5, animations of 1600 ms):
the timer fires, `handleTimeout(1)` is accepted, frame 1 reaches the receiver,
the retransmission is sent, and the ACK of frame 1 reaches `receiveAck`. -/
def earlyTimeoutSchedule : List Event :=
  [.timerFire, .graceDone 1, .frameArrive, .deliverFrame false, .retransmit false 0,
   .deliverAck 0]

/-- A second run of 2 frames started while the ACK of an earlier run is still in
transit (default settings: animations of 1600 ms, timeout factor 2.5): the
first run has its frame 1 taken by the receiver (1830 ms), the reset button is
clicked (2000 ms) and a start button again (2100 ms). -/
def secondRunSys : Sys :=
  startSys false { numFrames := some 2, stepModeChecked := false } false 0
    (resetClick ((exec [.frameArrive, .deliverFrame false] demoSys).getD demoSys))

/-- The schedule of that second run: the ACK of the earlier run reaches
`receiveAck` (3460 ms), the animation of frame 1 ends (3730 ms), the 400 ms
callback sends frame 2 (3860 ms), the receiver handles frame 1 (3930 ms), the
animation of frame 2 ends (5490 ms), and the ACK sent at 3930 ms reaches
`receiveAck` (5560 ms). No frame or ACK is lost and no timer fires. -/
def secondRunSchedule : List Event :=
  [.deliverAck 0, .frameArrive, .autoAdvance false 0, .deliverFrame false, .frameArrive,
   .deliverAck 0]

/-- The events of one lossless round after the first: the frame arrives and is
taken, its ACK arrives, the 400 ms callback sends the next frame. -/
def losslessRound (now : Nat) : List Event :=
  [.frameArrive, .deliverFrame false, .deliverAck now, .autoAdvance false now]

/-- The lossless schedule of a continuous run of `k + 1` frames: `k` full
rounds, then the last frame and its ACK. -/
def losslessSchedule (now : Nat) : Nat → List Event
  | 0 => [.frameArrive, .deliverFrame false, .deliverAck now]
  | k + 1 => losslessRound now ++ losslessSchedule now k

/-- The shape of a continuous lossless run while frame `i` of `n` is flying:
the sender waits for its ACK and nothing else is pending. -/
def FrameFlying (n i : Nat) (σ : Sys) : Prop :=
  σ.g.simulationRunning = true ∧ σ.g.simulationPaused = false ∧ σ.g.stepMode = false ∧
  σ.g.waitingForAck = true ∧ σ.g.activeTxSeq = some σ.g.senderSeq ∧
  σ.g.receiverExpectedSeq = σ.g.senderSeq ∧ σ.g.timeoutExpired = false ∧
  σ.g.lastAckTxIdHandled < σ.g.currentTxId ∧ σ.g.dataToSend.length = n ∧
  σ.g.dataIndex = i ∧ (∃ x, σ.flying = [x]) ∧ σ.frames = [] ∧
  σ.acks = [] ∧ σ.autos = 0

/-- The shape of a continuous lossless run while frame `i` of `n` waits in
`receiveFrame`. -/
def FrameOnWay (n i : Nat) (σ : Sys) : Prop :=
  σ.g.simulationRunning = true ∧ σ.g.simulationPaused = false ∧ σ.g.stepMode = false ∧
  σ.g.waitingForAck = true ∧ σ.g.activeTxSeq = some σ.g.senderSeq ∧
  σ.g.receiverExpectedSeq = σ.g.senderSeq ∧ σ.g.timeoutExpired = false ∧
  σ.g.lastAckTxIdHandled < σ.g.currentTxId ∧ σ.g.dataToSend.length = n ∧
  σ.g.dataIndex = i ∧ σ.flying = [] ∧ (∃ f, σ.frames = [f] ∧ f.seq = σ.g.senderSeq) ∧
  σ.acks = [] ∧ σ.autos = 0

/-- The shape of a continuous lossless run while the ACK of frame `i` of `n` is
on its way to the sender. -/
def AckOnWay (n i : Nat) (σ : Sys) : Prop :=
  σ.g.simulationRunning = true ∧ σ.g.simulationPaused = false ∧ σ.g.stepMode = false ∧
  σ.g.waitingForAck = true ∧ σ.g.activeTxSeq = some σ.g.senderSeq ∧
  σ.g.receiverExpectedSeq = 1 - σ.g.senderSeq ∧ σ.g.timeoutExpired = false ∧
  σ.g.lastAckTxIdHandled < σ.g.currentTxId ∧ σ.g.dataToSend.length = n ∧
  σ.g.dataIndex = i ∧ σ.flying = [] ∧ σ.frames = [] ∧ σ.acks = [σ.g.senderSeq] ∧
  σ.autos = 0

/-- The shape of a continuous lossless run after the ACK of frame `i - 1` was
accepted and before the 400 ms callback sends frame `i` of `n`. -/
def SenderReady (n i : Nat) (σ : Sys) : Prop :=
  σ.g.simulationRunning = true ∧ σ.g.simulationPaused = false ∧ σ.g.stepMode = false ∧
  σ.g.waitingForAck = false ∧ σ.g.activeTxSeq = none ∧
  σ.g.receiverExpectedSeq = σ.g.senderSeq ∧
  σ.g.lastAckTxIdHandled ≤ σ.g.currentTxId ∧ σ.g.dataToSend.length = n ∧
  σ.g.dataIndex = i ∧ σ.flying = [] ∧ σ.frames = [] ∧ σ.acks = [] ∧ σ.autos = 1

end StopAndWait

namespace StopAndWait

/-! ## Handler-level facts -/

/-- C2 (timeout safety): when the simulation is not running, or `txId` is not
the current transaction, or no ACK is awaited, `handleTimeout(txId)` leaves
every simulation variable (all counters included) as it was and does not go on
to `sendFrame(true)`. -/
theorem C2_handleTimeout_guard_noop (s : State) (txId : Nat)
    (h : s.simulationRunning = false ∨ txId ≠ s.currentTxId ∨ s.waitingForAck = false) :
    handleTimeout txId s = (s, false) := by
  simp [handleTimeout, h]

/-- Witness of C2: a timer of the superseded transaction 1 fires after
transaction 2 was armed. -/
theorem C2_handleTimeout_guard_noop_witness :
    (demoResent.simulationRunning = false ∨ 1 ≠ demoResent.currentTxId ∨
      demoResent.waitingForAck = false) ∧
    handleTimeout 1 demoResent = (demoResent, false) :=
  ⟨by decide, C2_handleTimeout_guard_noop demoResent 1 (by decide)⟩

/-- The three ways a call of `sendFrame` ends, with the state it leaves. -/
theorem sendFrame_cases (r u : Bool) (now : Nat) (s : State) :
    sendFrame r u now s = (s, .skipped) ∨
    (s.simulationRunning = true ∧ (s.waitingForAck = true → r = true) ∧
      s.dataToSend.length ≤ s.dataIndex ∧
      sendFrame r u now s = (finishSimulation now s, .finished)) ∨
    (s.simulationRunning = true ∧ (s.waitingForAck = true → r = true) ∧
      s.dataIndex < s.dataToSend.length ∧
      sendFrame r u now s =
        ({ s with
            stats := { s.stats with
              totalTransmissions := s.stats.totalTransmissions + 1,
              retransmissions :=
                if r = true then s.stats.retransmissions + 1 else s.stats.retransmissions,
              framesLost :=
                if (s.isNoisy && u) = true then s.stats.framesLost + 1 else s.stats.framesLost },
            currentTxId := s.currentTxId + 1,
            activeTxSeq := some s.senderSeq,
            waitingForAck := true,
            timeoutExpired := false,
            timeoutId := some (s.currentTxId + 1) },
          .sent (s.dataToSend.getD s.dataIndex 0) (s.currentTxId + 1) (s.isNoisy && u))) := by
  unfold sendFrame
  by_cases h1 : s.simulationRunning = false
  · left; simp [h1]
  by_cases h2 : s.waitingForAck = true ∧ r = false
  · left; simp [h1, h2]
  have h1b : s.simulationRunning = true := by simpa using h1
  have h2b : s.waitingForAck = true → r = true := by
    intro hw
    cases r
    · exact absurd ⟨hw, rfl⟩ h2
    · rfl
  by_cases h3 : s.dataIndex ≥ s.dataToSend.length
  · right; left
    refine ⟨h1b, h2b, h3, ?_⟩
    rw [if_neg h1, if_neg h2, if_pos h3]
  · right; right
    refine ⟨h1b, h2b, by omega, ?_⟩
    rw [if_neg h1, if_neg h2, if_neg h3]

/-- The two ways a call of `receiveAck` ends: the ACK is discarded and nothing
is written, or it is accepted. -/
theorem receiveAck_cases (a : Int) (now : Nat) (s : State) :
    ((receiveAck a now s).1 = s ∧ (receiveAck a now s).2.accepted = false) ∨
    (s.simulationRunning = true ∧ s.activeTxSeq = some a ∧
      s.lastAckTxIdHandled < s.currentTxId ∧ s.timeoutExpired = false ∧
      (receiveAck a now s).2.accepted = true ∧
      (receiveAck a now s).1 =
        { s with
          lastAckTxIdHandled := s.currentTxId,
          timeoutId := none,
          waitingForAck := false,
          activeTxSeq := none,
          timeoutExpired := false,
          senderSeq := 1 - s.senderSeq,
          dataIndex := s.dataIndex + 1,
          simulationRunning := if s.dataIndex + 1 ≥ s.dataToSend.length then false else true,
          awaitingNextStep :=
            if s.dataIndex + 1 < s.dataToSend.length ∧ s.stepMode = true then true
            else s.awaitingNextStep,
          stats := { s.stats with
            endTime := if s.dataIndex + 1 ≥ s.dataToSend.length then some now
                       else s.stats.endTime } }) := by
  unfold receiveAck
  by_cases h1 : s.simulationRunning = false
  · left; simp [h1, AckResult.accepted]
  by_cases h2 : s.activeTxSeq ≠ some a ∨ s.currentTxId ≤ s.lastAckTxIdHandled
  · left
    rw [if_neg h1, if_pos h2]
    simp [AckResult.accepted]
  by_cases h3 : s.timeoutExpired = true
  · left
    rw [if_neg h1, if_neg h2, if_pos h3]
    simp [AckResult.accepted]
  right
  have h1b : s.simulationRunning = true := by simpa using h1
  have h3b : s.timeoutExpired = false := by simpa using h3
  have h2a : s.activeTxSeq = some a := by
    by_contra hc
    exact h2 (Or.inl hc)
  have h2b : s.lastAckTxIdHandled < s.currentTxId := by
    by_contra hc
    exact h2 (Or.inr (by omega))
  refine ⟨h1b, h2a, h2b, h3b, ?_, ?_⟩
  · rw [if_neg h1, if_neg h2, if_neg h3]
    simp only
    split_ifs <;> simp [AckResult.accepted]
  · rw [if_neg h1, if_neg h2, if_neg h3]
    simp only
    by_cases h4 : s.dataIndex + 1 ≥ s.dataToSend.length
    · have h4b : ¬ (s.dataIndex + 1 < s.dataToSend.length ∧ s.stepMode = true) := by
        intro hc; omega
      rw [if_pos h4]
      simp [finishSimulation, h4, h4b, h1b]
    · rw [if_neg h4]
      by_cases h5 : s.stepMode = true
      · have h5b : s.dataIndex + 1 < s.dataToSend.length ∧ s.stepMode = true := ⟨by omega, h5⟩
        rw [if_pos h5]
        simp [h4, h5b, h1b]
      · have h5b : ¬ (s.dataIndex + 1 < s.dataToSend.length ∧ s.stepMode = true) := by
          intro hc; exact h5 hc.2
        rw [if_neg h5]
        simp [h4, h5b, h1b]

/-- The condition under which `receiveAck` discards the ACK. -/
theorem receiveAck_discard (s : State) (a : Int) (now : Nat)
    (h : s.simulationRunning = false ∨ s.activeTxSeq ≠ some a ∨
      s.currentTxId ≤ s.lastAckTxIdHandled ∨ s.timeoutExpired = true) :
    (receiveAck a now s).1 = s ∧ (receiveAck a now s).2.accepted = false := by
  unfold receiveAck
  by_cases h1 : s.simulationRunning = false
  · simp [h1, AckResult.accepted]
  by_cases h2 : s.activeTxSeq ≠ some a ∨ s.currentTxId ≤ s.lastAckTxIdHandled
  · simp only [h1, h2, if_true, if_false]
    simp [AckResult.accepted]
  by_cases h3 : s.timeoutExpired = true
  · simp only [h1, h2, h3, if_true, if_false]
    simp [AckResult.accepted]
  · exfalso
    rcases h with h | h | h | h
    · exact h1 h
    · exact h2 (Or.inl h)
    · exact h2 (Or.inr h)
    · exact h3 h

/-- What an accepting call of `receiveAck` writes. -/
theorem receiveAck_accept (s : State) (a : Int) (now : Nat)
    (h1 : s.simulationRunning = true) (h2 : s.activeTxSeq = some a)
    (h3 : s.lastAckTxIdHandled < s.currentTxId) (h4 : s.timeoutExpired = false) :
    (receiveAck a now s).2.accepted = true ∧
    (receiveAck a now s).1.activeTxSeq = none ∧
    (receiveAck a now s).1.waitingForAck = false ∧
    (receiveAck a now s).1.senderSeq = 1 - s.senderSeq ∧
    (receiveAck a now s).1.dataIndex = s.dataIndex + 1 ∧
    (receiveAck a now s).1.lastAckTxIdHandled = s.currentTxId ∧
    (receiveAck a now s).1.currentTxId = s.currentTxId ∧
    (receiveAck a now s).1.receiverExpectedSeq = s.receiverExpectedSeq ∧
    (receiveAck a now s).1.dataToSend = s.dataToSend ∧
    (receiveAck a now s).1.stats.successfulDeliveries = s.stats.successfulDeliveries ∧
    (receiveAck a now s).1.stats.totalTransmissions = s.stats.totalTransmissions ∧
    (receiveAck a now s).1.stats.retransmissions = s.stats.retransmissions ∧
    (receiveAck a now s).1.simulationRunning =
      (if s.dataIndex + 1 ≥ s.dataToSend.length then false else true) := by
  have h3b : ¬ s.currentTxId ≤ s.lastAckTxIdHandled := by omega
  unfold receiveAck
  simp only [h1, h2, h3b, h4, ne_eq, not_true_eq_false, or_self, if_false, Bool.true_eq_false,
    Bool.false_eq_true]
  split_ifs <;> simp_all [finishSimulation, AckResult.accepted]

/-- One call of `receiveAck` toggles `senderSeq` at most once and advances
`dataIndex` by at most 1. -/
theorem receiveAck_once (s : State) (a : Int) (now : Nat) :
    ((receiveAck a now s).1.senderSeq = s.senderSeq ∨
      (receiveAck a now s).1.senderSeq = 1 - s.senderSeq) ∧
    (receiveAck a now s).1.dataIndex ≤ s.dataIndex + 1 := by
  by_cases h : s.simulationRunning = false ∨ s.activeTxSeq ≠ some a ∨
      s.currentTxId ≤ s.lastAckTxIdHandled ∨ s.timeoutExpired = true
  · rw [(receiveAck_discard s a now h).1]
    exact ⟨Or.inl rfl, by omega⟩
  · have h1 : s.simulationRunning = true := by
      cases hr : s.simulationRunning
      · exact absurd (Or.inl hr) h
      · rfl
    have h2 : s.activeTxSeq = some a := by
      by_contra hc
      exact h (Or.inr (Or.inl hc))
    have h3 : s.lastAckTxIdHandled < s.currentTxId := by
      by_contra hc
      exact h (Or.inr (Or.inr (Or.inl (by omega))))
    have h4 : s.timeoutExpired = false := by
      cases hr : s.timeoutExpired
      · rfl
      · exact absurd (Or.inr (Or.inr (Or.inr hr))) h
    have acc := receiveAck_accept s a now h1 h2 h3 h4
    exact ⟨Or.inr acc.2.2.2.1, by rw [acc.2.2.2.2.1]⟩

/-- A call of `receiveAck` right after another call of `receiveAck` with the
same number changes nothing and is not an acceptance. -/
theorem receiveAck_again (s : State) (a : Int) (now now2 : Nat) :
    (receiveAck a now2 (receiveAck a now s).1).1 = (receiveAck a now s).1 ∧
    (receiveAck a now2 (receiveAck a now s).1).2.accepted = false := by
  by_cases h : s.simulationRunning = false ∨ s.activeTxSeq ≠ some a ∨
      s.currentTxId ≤ s.lastAckTxIdHandled ∨ s.timeoutExpired = true
  · have e := (receiveAck_discard s a now h).1
    rw [e]
    exact receiveAck_discard s a now2 h
  · have h1 : s.simulationRunning = true := by
      cases hr : s.simulationRunning
      · exact absurd (Or.inl hr) h
      · rfl
    have h2 : s.activeTxSeq = some a := by
      by_contra hc
      exact h (Or.inr (Or.inl hc))
    have h3 : s.lastAckTxIdHandled < s.currentTxId := by
      by_contra hc
      exact h (Or.inr (Or.inr (Or.inl (by omega))))
    have h4 : s.timeoutExpired = false := by
      cases hr : s.timeoutExpired
      · rfl
      · exact absurd (Or.inr (Or.inr (Or.inr hr))) h
    have acc := receiveAck_accept s a now h1 h2 h3 h4
    apply receiveAck_discard
    right; left
    rw [acc.2.1]
    simp

/-- C5 (ACK idempotence): for every state and every ACK bit `a`, two calls
`receiveAck(a)` in a row accept at most once: the second call is never an
acceptance and leaves the state the first call produced; over both calls
`senderSeq` is toggled at most once, `dataIndex` grows by at most 1, and the
second call keeps `lastAckTxIdHandled`. -/
theorem C5_receiveAck_idempotent (s : State) (a : Int) (ha : a = 0 ∨ a = 1)
    (now now2 : Nat) :
    (receiveAck a now2 (receiveAck a now s).1).1 = (receiveAck a now s).1 ∧
    (receiveAck a now2 (receiveAck a now s).1).2.accepted = false ∧
    ((receiveAck a now2 (receiveAck a now s).1).1.senderSeq = s.senderSeq ∨
      (receiveAck a now2 (receiveAck a now s).1).1.senderSeq = 1 - s.senderSeq) ∧
    (receiveAck a now2 (receiveAck a now s).1).1.dataIndex ≤ s.dataIndex + 1 ∧
    (receiveAck a now2 (receiveAck a now s).1).1.lastAckTxIdHandled =
      (receiveAck a now s).1.lastAckTxIdHandled := by
  have _ := ha
  have h := receiveAck_again s a now now2
  have e : (receiveAck a now2 (receiveAck a now s).1).1 = (receiveAck a now s).1 := h.1
  have step1 := receiveAck_once s a now
  refine ⟨e, h.2, ?_, ?_, by rw [e]⟩
  · rw [e]
    exact step1.1
  · rw [e]
    exact step1.2

/-- Witness of C5: the ACK of the outstanding frame is delivered twice; the
first call is an acceptance, the second changes nothing. -/
theorem C5_receiveAck_idempotent_witness :
    ((0 : Int) = 0 ∨ (0 : Int) = 1) ∧
    (receiveAck 0 0 demoSent).2.accepted = true ∧
    ((receiveAck 0 9 (receiveAck 0 0 demoSent).1).1 = (receiveAck 0 0 demoSent).1 ∧
    (receiveAck 0 9 (receiveAck 0 0 demoSent).1).2.accepted = false ∧
    ((receiveAck 0 9 (receiveAck 0 0 demoSent).1).1.senderSeq = demoSent.senderSeq ∨
      (receiveAck 0 9 (receiveAck 0 0 demoSent).1).1.senderSeq = 1 - demoSent.senderSeq) ∧
    (receiveAck 0 9 (receiveAck 0 0 demoSent).1).1.dataIndex ≤ demoSent.dataIndex + 1 ∧
    (receiveAck 0 9 (receiveAck 0 0 demoSent).1).1.lastAckTxIdHandled =
      (receiveAck 0 0 demoSent).1.lastAckTxIdHandled) :=
  ⟨by decide, by decide, C5_receiveAck_idempotent demoSent 0 (by decide) 0 9⟩

/-- C6 (receiver duplicate suppression): with `receiverExpectedSeq = b`, two
frames with sequence bit `b` delivered one after the other through
`receiveFrame` (the `sendAck` of the first in between) toggle
`receiverExpectedSeq` once and count one successful delivery; the second call
passes `b` to `sendAck`, which is `1 - receiverExpectedSeq` at that time, and
keeps `receiverExpectedSeq`. -/
theorem C6_receiver_duplicate (s : State) (b : Int) (hb : b = 0 ∨ b = 1)
    (f1 f2 : Frame) (u : Bool)
    (hs : s.receiverExpectedSeq = b) (h1 : f1.seq = b) (h2 : f2.seq = b) :
    (receiveFrame f1 s).1.receiverExpectedSeq = 1 - b ∧
    (receiveFrame f1 s).1.stats.successfulDeliveries = s.stats.successfulDeliveries + 1 ∧
    (receiveFrame f1 s).2 = b ∧
    (receiveFrame f2 (sendAck (receiveFrame f1 s).2 u (receiveFrame f1 s).1).1).1.receiverExpectedSeq
      = (receiveFrame f1 s).1.receiverExpectedSeq ∧
    (receiveFrame f2 (sendAck (receiveFrame f1 s).2 u (receiveFrame f1 s).1).1).1.stats.successfulDeliveries
      = s.stats.successfulDeliveries + 1 ∧
    (receiveFrame f2 (sendAck (receiveFrame f1 s).2 u (receiveFrame f1 s).1).1).2 = b ∧
    (receiveFrame f2 (sendAck (receiveFrame f1 s).2 u (receiveFrame f1 s).1).1).2
      = 1 - (sendAck (receiveFrame f1 s).2 u (receiveFrame f1 s).1).1.receiverExpectedSeq := by
  have hne : b ≠ 1 - b := by omega
  subst hs
  simp only [receiveFrame, h1, h2, if_true]
  unfold sendAck
  split_ifs <;> simp_all

/-- Witness of C6: the frame of transaction 1 and its retransmission reach the
receiver one after the other. -/
theorem C6_receiver_duplicate_witness :
    ((0 : Int) = 0 ∨ (0 : Int) = 1) ∧ demoResent.receiverExpectedSeq = 0 ∧
    (receiveFrame demoFrame demoResent).1.receiverExpectedSeq = 1 - 0 ∧
    (receiveFrame demoFrame demoResent).1.stats.successfulDeliveries =
      demoResent.stats.successfulDeliveries + 1 ∧
    (receiveFrame demoFrame demoResent).2 = 0 ∧
    (receiveFrame { seq := 0, data := 1, txId := 2 }
      (sendAck (receiveFrame demoFrame demoResent).2 false
        (receiveFrame demoFrame demoResent).1).1).1.receiverExpectedSeq
      = (receiveFrame demoFrame demoResent).1.receiverExpectedSeq ∧
    (receiveFrame { seq := 0, data := 1, txId := 2 }
      (sendAck (receiveFrame demoFrame demoResent).2 false
        (receiveFrame demoFrame demoResent).1).1).1.stats.successfulDeliveries
      = demoResent.stats.successfulDeliveries + 1 ∧
    (receiveFrame { seq := 0, data := 1, txId := 2 }
      (sendAck (receiveFrame demoFrame demoResent).2 false
        (receiveFrame demoFrame demoResent).1).1).2 = 0 ∧
    (receiveFrame { seq := 0, data := 1, txId := 2 }
      (sendAck (receiveFrame demoFrame demoResent).2 false
        (receiveFrame demoFrame demoResent).1).1).2
      = 1 - (sendAck (receiveFrame demoFrame demoResent).2 false
        (receiveFrame demoFrame demoResent).1).1.receiverExpectedSeq :=
  ⟨by decide, by decide,
    C6_receiver_duplicate demoResent 0 (by decide) demoFrame { seq := 0, data := 1, txId := 2 }
      false (by decide) (by decide) (by decide)⟩

/-- With the simulation stopped, `sendFrame`, `receiveAck` and `handleTimeout`
return at their first guard and write nothing. -/
theorem stopped_guarded_handlers (s : State) (h : s.simulationRunning = false)
    (r u : Bool) (now : Nat) (a : Int) (t : Nat) :
    sendFrame r u now s = (s, .skipped) ∧ receiveAck a now s = (s, .notRunning) ∧
    handleTimeout t s = (s, false) := by
  simp [sendFrame, receiveAck, handleTimeout, h]

/-- C7 (code defect): `receiveFrame` and `sendAck` do not test
`simulationRunning`. After `resetState`, the frame of transaction 1 that was
still on its way reaches `receiveFrame`: `receiverExpectedSeq` goes from 0 to 1
and `successfulDeliveries` from 0 to 1. After `resetState` of a noisy run, a
`sendAck` that draws a loss raises `acksLost` from 0 to 1. -/
theorem C7_stopped_receiver_not_inert :
    (resetState demoSent).simulationRunning = false ∧
    (resetState demoSent).receiverExpectedSeq = 0 ∧
    (resetState demoSent).stats.successfulDeliveries = 0 ∧
    (receiveFrame demoFrame (resetState demoSent)).1.receiverExpectedSeq = 1 ∧
    (receiveFrame demoFrame (resetState demoSent)).1.stats.successfulDeliveries = 1 ∧
    (resetState demoNoisySent).simulationRunning = false ∧
    (resetState demoNoisySent).stats.acksLost = 0 ∧
    (sendAck 0 true (resetState demoNoisySent)).1.stats.acksLost = 1 := by
  decide

/-- An accepted `handleTimeout` followed by its `sendFrame(true)` adds 2 to
`stats.retransmissions` and 1 to `stats.totalTransmissions`, and keeps
`senderSeq` and `dataIndex`. -/
theorem timeout_resend_counts (s : State) (txId : Nat) (u : Bool) (now : Nat)
    (h1 : s.simulationRunning = true) (h2 : txId = s.currentTxId)
    (h3 : s.waitingForAck = true) (h4 : s.dataIndex < s.dataToSend.length) :
    (handleTimeout txId s).2 = true ∧
    (sendFrame true u now (handleTimeout txId s).1).1.stats.retransmissions
      = s.stats.retransmissions + 2 ∧
    (sendFrame true u now (handleTimeout txId s).1).1.stats.totalTransmissions
      = s.stats.totalTransmissions + 1 ∧
    (sendFrame true u now (handleTimeout txId s).1).1.senderSeq = s.senderSeq ∧
    (sendFrame true u now (handleTimeout txId s).1).1.dataIndex = s.dataIndex ∧
    (sendFrame true u now (handleTimeout txId s).1).1.currentTxId = s.currentTxId + 1 ∧
    (sendFrame true u now (handleTimeout txId s).1).1.timeoutExpired = false ∧
    (sendFrame true u now (handleTimeout txId s).1).1.activeTxSeq = some s.senderSeq := by
  have h4b : ¬ s.dataIndex ≥ s.dataToSend.length := by omega
  simp [handleTimeout, sendFrame, h1, h2, h3, h4b]

/-- C8 (code defect): in the run of 2 frames, `handleTimeout(1)` is accepted
while frame 1 is outstanding; after the handler and its `sendFrame(true)`,
`stats.retransmissions` has gone from 0 to 2 for the one retransmission
(`handleTimeout` and `sendFrame(true)` both count it), while
`stats.totalTransmissions` has grown by 1 and `senderSeq`, `dataIndex` are
unchanged. -/
theorem C8_retransmission_counted_twice :
    demoSent.simulationRunning = true ∧ 1 = demoSent.currentTxId ∧
    demoSent.waitingForAck = true ∧ demoSent.dataIndex < demoSent.dataToSend.length ∧
    (handleTimeout 1 demoSent).2 = true ∧
    demoSent.stats.retransmissions = 0 ∧
    (handleTimeout 1 demoSent).1.stats.retransmissions = 1 ∧
    (sendFrame true false 0 (handleTimeout 1 demoSent).1).1.stats.retransmissions = 2 ∧
    (sendFrame true false 0 (handleTimeout 1 demoSent).1).1.stats.totalTransmissions
      = demoSent.stats.totalTransmissions + 1 ∧
    (sendFrame true false 0 (handleTimeout 1 demoSent).1).1.senderSeq = demoSent.senderSeq ∧
    (sendFrame true false 0 (handleTimeout 1 demoSent).1).1.dataIndex = demoSent.dataIndex := by
  decide

/-- After an accepted `handleTimeout` and its `sendFrame(true)`, an ACK that
carries the bit of the outstanding frame is accepted by `receiveAck`, whichever
attempt it answers: the retransmission has cleared `timeoutExpired`, and
`receiveAck` has no transaction id to compare. -/
theorem late_ack_accepted (s : State) (txId : Nat) (u : Bool) (now now2 : Nat)
    (h1 : s.simulationRunning = true) (h2 : txId = s.currentTxId)
    (h3 : s.waitingForAck = true) (h4 : s.dataIndex < s.dataToSend.length)
    (h5 : s.lastAckTxIdHandled ≤ s.currentTxId) :
    (receiveAck s.senderSeq now2
      (sendFrame true u now (handleTimeout txId s).1).1).2.accepted = true ∧
    (receiveAck s.senderSeq now2
      (sendFrame true u now (handleTimeout txId s).1).1).1.senderSeq = 1 - s.senderSeq ∧
    (receiveAck s.senderSeq now2
      (sendFrame true u now (handleTimeout txId s).1).1).1.dataIndex = s.dataIndex + 1 := by
  have c := timeout_resend_counts s txId u now h1 h2 h3 h4
  have hr : (sendFrame true u now (handleTimeout txId s).1).1.simulationRunning = true := by
    have h4b : ¬ s.dataIndex ≥ s.dataToSend.length := by omega
    simp [handleTimeout, sendFrame, h1, h2, h3, h4b]
  have hl : (sendFrame true u now (handleTimeout txId s).1).1.lastAckTxIdHandled
      = s.lastAckTxIdHandled := by
    have h4b : ¬ s.dataIndex ≥ s.dataToSend.length := by omega
    simp [handleTimeout, sendFrame, h1, h2, h3, h4b]
  have acc := receiveAck_accept (sendFrame true u now (handleTimeout txId s).1).1 s.senderSeq
    now2 hr c.2.2.2.2.2.2.2 (by rw [hl, c.2.2.2.2.2.1]; omega) c.2.2.2.2.2.2.1
  refine ⟨acc.1, ?_, ?_⟩
  · rw [acc.2.2.2.1, c.2.2.2.1]
  · rw [acc.2.2.2.2.1, c.2.2.2.2.1]

/-- C1 (code defect): in the run of 2 frames, frame 1 (bit 0, transaction 1)
is sent, `handleTimeout(1)` is accepted and `sendFrame(true)` arms transaction
2 with the same bit. The ACK produced for frame 1 then reaches `receiveAck(0)`
and is accepted: `senderSeq` goes from 0 to 1, `dataIndex` from 0 to 1,
`waitingForAck` from true to false, `activeTxSeq` from 0 to null and
`lastAckTxIdHandled` from 0 to 2. The same happens along the schedule
`lateAckSchedule` of the whole system. -/
theorem C1_late_ack_accepted :
    demoResent.currentTxId = 2 ∧ demoResent.senderSeq = 0 ∧ demoResent.dataIndex = 0 ∧
    demoResent.waitingForAck = true ∧ demoResent.activeTxSeq = some 0 ∧
    demoResent.lastAckTxIdHandled = 0 ∧
    (sendFrame false false 0 demoStart).2 = .sent 1 1 false ∧
    arrivedFrame 1 1 (handleTimeout 1 demoSent).1 = demoFrame ∧
    (receiveFrame demoFrame demoResent).2 = 0 ∧
    (receiveAck 0 0 demoResent).2 = .scheduled ∧
    (receiveAck 0 0 demoResent).1.currentTxId = 2 ∧
    (receiveAck 0 0 demoResent).1.senderSeq = 1 ∧
    (receiveAck 0 0 demoResent).1.dataIndex = 1 ∧
    (receiveAck 0 0 demoResent).1.waitingForAck = false ∧
    (receiveAck 0 0 demoResent).1.activeTxSeq = none ∧
    (receiveAck 0 0 demoResent).1.lastAckTxIdHandled = 2 ∧
    demoSys.flying = [(1, 1)] ∧
    (exec lateAckSchedule demoSys).map (fun σ => (σ.g.currentTxId, σ.g.senderSeq,
      σ.g.dataIndex, σ.g.waitingForAck, σ.g.lastAckTxIdHandled))
      = some (2, 1, 1, false, 2) := by
  decide

/-! ## Transaction ids -/

/-- A `sendFrame` call that passes its guards raises `currentTxId` by 1 and
tags the frame with the new value. -/
theorem sendFrame_sent_txId (r u : Bool) (now : Nat) (s : State) (d t : Nat) (lost : Bool)
    (h : (sendFrame r u now s).2 = .sent d t lost) :
    (sendFrame r u now s).1.currentTxId = s.currentTxId + 1 ∧ t = s.currentTxId + 1 ∧
    ∀ s1 : State, (arrivedFrame d t s1).txId = s.currentTxId + 1 := by
  rcases sendFrame_cases r u now s with e | ⟨_, _, _, e⟩ | ⟨_, _, _, e⟩
  · rw [e] at h; simp at h
  · rw [e] at h; simp at h
  · rw [e] at h ⊢
    simp only [SendResult.sent.injEq] at h
    obtain ⟨_, rfl, _⟩ := h
    exact ⟨rfl, rfl, fun _ => rfl⟩

/-- The handlers other than `sendFrame` keep `currentTxId`. -/
theorem other_handlers_txId (s : State) (f : Frame) (a : Int) (u : Bool) (now t : Nat) :
    (receiveFrame f s).1.currentTxId = s.currentTxId ∧
    (sendAck a u s).1.currentTxId = s.currentTxId ∧
    (receiveAck a now s).1.currentTxId = s.currentTxId ∧
    (handleTimeout t s).1.currentTxId = s.currentTxId := by
  refine ⟨?_, ?_, ?_, ?_⟩
  · unfold receiveFrame; split_ifs <;> rfl
  · unfold sendAck; split_ifs <;> rfl
  · rcases receiveAck_cases a now s with ⟨e, _⟩ | ⟨_, _, _, _, _, e⟩ <;> rw [e]
  · unfold handleTimeout; split_ifs <;> rfl

/-- A handler call that transmits a frame raises `currentTxId` by 1 and tags
the frame with the new value. -/
theorem sentTxId_eq (h : Handler) (s : State) (t : Nat) (hf : h.sentTxId s = some t) :
    (h.apply s).currentTxId = s.currentTxId + 1 ∧ t = s.currentTxId + 1 := by
  cases h with
  | sendFrame r u now =>
    simp only [Handler.sentTxId] at hf
    simp only [Handler.apply]
    cases hr : (sendFrame r u now s).2 with
    | skipped => simp [hr] at hf
    | finished => simp [hr] at hf
    | sent d t1 lost =>
      simp [hr] at hf
      subst hf
      have := sendFrame_sent_txId r u now s d t1 lost hr
      exact ⟨this.1, this.2.1⟩
  | receiveFrame g => simp [Handler.sentTxId] at hf
  | sendAck a u => simp [Handler.sentTxId] at hf
  | receiveAck a now => simp [Handler.sentTxId] at hf
  | handleTimeout t => simp [Handler.sentTxId] at hf

/-- No handler call lowers `currentTxId`. -/
theorem apply_txId_le (h : Handler) (s : State) :
    s.currentTxId ≤ (h.apply s).currentTxId := by
  cases h with
  | sendFrame r u now =>
    simp only [Handler.apply]
    rcases sendFrame_cases r u now s with e | ⟨_, _, _, e⟩ | ⟨_, _, _, e⟩ <;> rw [e] <;>
      simp [finishSimulation]
  | receiveFrame g =>
    simp only [Handler.apply]; rw [(other_handlers_txId s g 0 false 0 0).1]
  | sendAck a u =>
    simp only [Handler.apply]; rw [(other_handlers_txId s ⟨0, 0, 0⟩ a u 0 0).2.1]
  | receiveAck a now =>
    simp only [Handler.apply]; rw [(other_handlers_txId s ⟨0, 0, 0⟩ a false now 0).2.2.1]
  | handleTimeout t =>
    simp only [Handler.apply]; rw [(other_handlers_txId s ⟨0, 0, 0⟩ 0 false 0 t).2.2.2]

/-- The frames transmitted during a sequence of handler calls carry ids above
the `currentTxId` the sequence started from, in strictly increasing order. -/
theorem sentTxIds_increasing (hs : List Handler) (s : State) :
    (∀ t ∈ sentTxIds hs s, s.currentTxId < t) ∧
    (sentTxIds hs s).Pairwise (fun a b => a < b) := by
  induction hs generalizing s with
  | nil => simp [sentTxIds]
  | cons h hs ih =>
    have ih1 := (ih (h.apply s)).1
    have ih2 := (ih (h.apply s)).2
    have hle := apply_txId_le h s
    simp only [sentTxIds]
    cases hf : h.sentTxId s with
    | none =>
      simp only
      refine ⟨?_, ih2⟩
      intro t hmem
      have := ih1 t hmem
      omega
    | some g =>
      simp only
      have hg := sentTxId_eq h s g hf
      refine ⟨?_, ?_⟩
      · intro t hmem
        rcases List.mem_cons.mp hmem with e | hmem
        · subst e; omega
        · have := ih1 t hmem
          omega
      · rw [List.pairwise_cons]
        refine ⟨?_, ih2⟩
        intro b hb
        have := ih1 b hb
        omega

/-- C9 (transaction-id monotonicity): from any state, a `sendFrame` call that
passes its guards (first send or retransmit) sets `currentTxId` to its
previous value plus 1 and tags the frame with that value (whenever the frame
object is built); `receiveFrame`, `sendAck`, `receiveAck` and `handleTimeout`
keep `currentTxId`; and along every sequence of handler calls the ids of the
frames sent are strictly increasing and pairwise distinct. -/
theorem C9_txId_monotone (s : State) (hs : List Handler) :
    (∀ r u now d t lost, (sendFrame r u now s).2 = .sent d t lost →
      (sendFrame r u now s).1.currentTxId = s.currentTxId + 1 ∧
      t = s.currentTxId + 1 ∧
      ∀ s1 : State, (arrivedFrame d t s1).txId = s.currentTxId + 1) ∧
    (∀ f a u now t,
      (receiveFrame f s).1.currentTxId = s.currentTxId ∧
      (sendAck a u s).1.currentTxId = s.currentTxId ∧
      (receiveAck a now s).1.currentTxId = s.currentTxId ∧
      (handleTimeout t s).1.currentTxId = s.currentTxId) ∧
    (sentTxIds hs s).Pairwise (fun a b => a < b) ∧
    (sentTxIds hs s).Nodup := by
  refine ⟨fun r u now d t lost h => sendFrame_sent_txId r u now s d t lost h,
    fun f a u now t => other_handlers_txId s f a u now t,
    (sentTxIds_increasing hs s).2, ?_⟩
  exact (sentTxIds_increasing hs s).2.imp (fun h => Nat.ne_of_lt h)

/-! ## The transaction-id test of `receiveAck` -/

/-- Every call keeps the three transaction bookkeeping facts. -/
theorem TxInv_call (c : Call) (s : State) (h : TxInv s) : TxInv (c.apply s) := by
  obtain ⟨h1, h2, h3⟩ := h
  cases c with
  | handler hd =>
    cases hd with
    | sendFrame r u now =>
      simp only [Call.apply, Handler.apply]
      rcases sendFrame_cases r u now s with e | ⟨_, _, _, e⟩ | ⟨_, _, _, e⟩ <;> rw [e]
      · exact ⟨h1, h2, h3⟩
      · exact ⟨by simpa [finishSimulation] using h1, by simpa [finishSimulation] using h2,
          by simpa [finishSimulation] using h3⟩
      · refine ⟨?_, ?_, ?_⟩
        · show s.lastAckTxIdHandled ≤ s.currentTxId + 1
          omega
        · simp
        · intro _
          show s.currentTxId + 1 > s.lastAckTxIdHandled
          omega
    | receiveFrame f =>
      simp only [Call.apply, Handler.apply]
      unfold receiveFrame
      split_ifs <;> exact ⟨by simpa using h1, by simpa using h2, by simpa using h3⟩
    | sendAck a u =>
      simp only [Call.apply, Handler.apply]
      unfold sendAck
      split_ifs <;> exact ⟨by simpa using h1, by simpa using h2, by simpa using h3⟩
    | receiveAck a now =>
      simp only [Call.apply, Handler.apply]
      rcases receiveAck_cases a now s with ⟨e, _⟩ | ⟨_, _, _, _, _, e⟩ <;> rw [e]
      · exact ⟨h1, h2, h3⟩
      · refine ⟨?_, ?_, ?_⟩ <;> simp
    | handleTimeout t =>
      simp only [Call.apply, Handler.apply]
      unfold handleTimeout
      split_ifs <;> exact ⟨by simpa using h1, by simpa using h2, by simpa using h3⟩
  | resetState =>
    simp [Call.apply, resetState, TxInv]
  | startSimulation noisy inp now =>
    simp only [Call.apply]
    unfold startSimulation
    split_ifs
    · exact ⟨h1, h2, h3⟩
    · cases inp.numFrames with
      | none => simp [resetState, TxInv]
      | some k =>
        simp only
        split_ifs <;> simp [resetState, TxInv]
  | finishSimulation now =>
    exact ⟨by simpa [Call.apply, finishSimulation] using h1,
      by simpa [Call.apply, finishSimulation] using h2,
      by simpa [Call.apply, finishSimulation] using h3⟩
  | pauseClick =>
    simp only [Call.apply]
    unfold pauseClick
    split_ifs <;> exact ⟨by simpa using h1, by simpa using h2, by simpa using h3⟩

/-- The three transaction bookkeeping facts hold after every sequence of calls
made from a reset state. -/
theorem TxInv_runCalls (cs : List Call) (s : State) (h : TxInv s) : TxInv (runCalls cs s) := by
  induction cs generalizing s with
  | nil => exact h
  | cons c cs ih => exact ih (c.apply s) (TxInv_call c s h)

/-- Where an ACK is awaited with an id above the last handled one, the
transaction-id test of `receiveAck` can be dropped. -/
theorem receiveAck_eq_bitOnly (s : State) (a : Int) (now : Nat)
    (h : s.activeTxSeq ≠ none → s.currentTxId > s.lastAckTxIdHandled) :
    receiveAck a now s = receiveAckBitOnly a now s := by
  unfold receiveAck receiveAckBitOnly
  by_cases h1 : s.simulationRunning = false
  · simp [h1]
  by_cases h2 : s.activeTxSeq = some a
  · have h3 : ¬ s.currentTxId ≤ s.lastAckTxIdHandled := by
      have := h (by rw [h2]; simp)
      omega
    simp [h1, h2, h3]
  · simp [h1, h2]

/-- C10 (the transaction-id guard of `receiveAck` never decides): in every
state reached from `resetState` by calls, in any order and with any arguments,
of `startSimulation`, the five event handlers, `finishSimulation` and the
pause click, `lastAckTxIdHandled <= currentTxId`, `waitingForAck` holds exactly
when `activeTxSeq` is not null, and `activeTxSeq` not null gives
`currentTxId > lastAckTxIdHandled`. Hence for an ACK number `a` equal to
`activeTxSeq` the test `currentTxId <= lastAckTxIdHandled` is false, and
`receiveAck(a)` does what it would do without that test. -/
theorem C10_txId_guard_never_decides (s0 : State) (cs : List Call) (a : Int) (now : Nat) :
    (runCalls cs (resetState s0)).lastAckTxIdHandled ≤ (runCalls cs (resetState s0)).currentTxId ∧
    ((runCalls cs (resetState s0)).waitingForAck = true ↔
      (runCalls cs (resetState s0)).activeTxSeq ≠ none) ∧
    ((runCalls cs (resetState s0)).activeTxSeq ≠ none →
      (runCalls cs (resetState s0)).currentTxId >
        (runCalls cs (resetState s0)).lastAckTxIdHandled) ∧
    ((runCalls cs (resetState s0)).activeTxSeq = some a →
      ¬ (runCalls cs (resetState s0)).currentTxId ≤
        (runCalls cs (resetState s0)).lastAckTxIdHandled) ∧
    receiveAck a now (runCalls cs (resetState s0)) =
      receiveAckBitOnly a now (runCalls cs (resetState s0)) := by
  have base : TxInv (resetState s0) := by simp [resetState, TxInv]
  obtain ⟨h1, h2, h3⟩ := TxInv_runCalls cs (resetState s0) base
  refine ⟨h1, h2, h3, ?_, receiveAck_eq_bitOnly _ a now h3⟩
  intro ha
  have := h3 (by rw [ha]; simp)
  omega



/-! ## Sequence bits -/

/-- C3 (code defect): in the noiseless run of 2 frames along `staleBitSchedule`
(timeout factor 0.5, animations of 300 ms) the retransmission of frame 1 is
still flying when the ACK of frame 1 is accepted; its frame object is built
afterwards and reads the toggled `senderSeq`, so the receiver takes the copy of
`Data-1` as a new frame. Then `simulationRunning` is true, `waitingForAck` is
false and `dataIndex = 1 < 2`, but `senderSeq = 1` and
`receiverExpectedSeq = 0`; the 400 ms callback then sends frame 2 with bit 1
while the receiver expects 0. -/
theorem C3_bits_disagree_before_send :
    (exec (staleBitSchedule.take 7) demoSys).map (fun σ => σ.frames)
      = some [{ seq := 1, data := 1, txId := 2 }] ∧
    (exec staleBitSchedule demoSys).map (fun σ => (σ.g.simulationRunning, σ.g.waitingForAck,
      σ.g.dataIndex, σ.g.dataToSend.length)) = some (true, false, 1, 2) ∧
    (exec staleBitSchedule demoSys).map (fun σ => (σ.g.senderSeq, σ.g.receiverExpectedSeq,
      σ.g.stats.successfulDeliveries, σ.autos)) = some (1, 0, 2, 1) ∧
    (exec (staleBitSchedule ++ [.autoAdvance false 0]) demoSys).map
      (fun σ => (σ.flying, σ.g.activeTxSeq, σ.g.receiverExpectedSeq))
      = some ([(2, 3)], some 1, 0) := by
  refine ⟨by decide, by decide, by decide, by decide⟩

/-! ## The alternating-bit invariant -/

theorem TwoPhase.of_left {a b : Int} {l : List Int} (h : ∀ x ∈ l, x = a) : TwoPhase a b l :=
  ⟨l, [], by simp, h, by simp⟩

theorem TwoPhase.of_right {a b : Int} {l : List Int} (h : ∀ x ∈ l, x = b) : TwoPhase a b l :=
  ⟨[], l, by simp, by simp, h⟩

theorem TwoPhase.snoc {a b : Int} {l : List Int} (h : TwoPhase a b l) :
    TwoPhase a b (l ++ [b]) := by
  obtain ⟨l1, l2, rfl, h1, h2⟩ := h
  refine ⟨l1, l2 ++ [b], by simp, h1, ?_⟩
  intro x hx
  rcases List.mem_append.mp hx with hx | hx
  · exact h2 x hx
  · simpa using hx

theorem TwoPhase.tail {a b x : Int} {l : List Int} (h : TwoPhase a b (x :: l)) :
    TwoPhase a b l := by
  obtain ⟨l1, l2, e, h1, h2⟩ := h
  cases l1 with
  | nil =>
    simp only [List.nil_append] at e
    subst e
    exact TwoPhase.of_right (fun y hy => h2 y (List.mem_cons_of_mem _ hy))
  | cons y l1 =>
    simp only [List.cons_append, List.cons.injEq] at e
    obtain ⟨_, rfl⟩ := e
    exact ⟨l1, l2, rfl, fun z hz => h1 z (List.mem_cons_of_mem _ hz), h2⟩

theorem TwoPhase.head_right {a b : Int} {l : List Int} (hab : a ≠ b)
    (h : TwoPhase a b (b :: l)) : ∀ x ∈ l, x = b := by
  obtain ⟨l1, l2, e, h1, h2⟩ := h
  cases l1 with
  | nil =>
    simp only [List.nil_append] at e
    subst e
    exact fun y hy => h2 y (List.mem_cons_of_mem _ hy)
  | cons y l1 =>
    simp only [List.cons_append, List.cons.injEq] at e
    obtain ⟨rfl, _⟩ := e
    exact absurd (h1 b (List.mem_cons_self _ _)).symm hab

theorem TwoPhase.head {a b x : Int} {l : List Int} (h : TwoPhase a b (x :: l)) :
    x = a ∨ x = b := by
  obtain ⟨l1, l2, e, h1, h2⟩ := h
  cases l1 with
  | nil =>
    simp only [List.nil_append] at e
    subst e
    exact Or.inr (h2 x (List.mem_cons_self _ _))
  | cons y l1 =>
    simp only [List.cons_append, List.cons.injEq] at e
    obtain ⟨rfl, _⟩ := e
    exact Or.inl (h1 x (List.mem_cons_self _ _))

/-- Core step: `sendFrame` transmits; the frame flies and carries no bit yet. -/
theorem AbpCore.bits_send {n : Nat} {s r : Int} {act : Option Int} {w : Bool}
    {len idx del : Nat} {fs acks : List Int}
    (h : AbpCore n s r act w true len idx del fs acks) :
    AbpCore n s r (some s) true true len idx del fs acks := by
  obtain ⟨_, hlen, hlive, hdone, hc⟩ := h
  exact ⟨by simp, hlen, hlive, hdone, hc⟩

/-- Core step: the animation of a flying frame ends and its frame object is
built with the bit the sender has then. -/
theorem AbpCore.bits_arrive {n : Nat} {s r : Int} {act : Option Int} {w run : Bool}
    {len idx del : Nat} {fs acks : List Int}
    (h : AbpCore n s r act w run len idx del fs acks) :
    AbpCore n s r act w run len idx del (fs ++ [s]) acks := by
  obtain ⟨ha, hlen, hlive, hdone, hc⟩ := h
  refine ⟨ha, hlen, hlive, hdone, ?_⟩
  rcases hc with ⟨c1, c2, c3, c4⟩ | ⟨c1, c2, c3, c4⟩
  · exact Or.inl ⟨c1, c2.snoc, c3, c4⟩
  · refine Or.inr ⟨c1, ?_, c3, c4⟩
    intro f hf
    rcases List.mem_append.mp hf with hf | hf
    · exact c2 f hf
    · simpa using hf

/-- Core step: the oldest frame in `receiveFrame` carries the expected bit and
is taken by the receiver; its ACK is sent (and maybe lost). -/
theorem AbpCore.frameInOrder {n : Nat} {s r f : Int} {act : Option Int} {w run : Bool}
    {len idx del : Nat} {fs acks : List Int}
    (h : AbpCore n s r act w run len idx del (f :: fs) acks) (hf : f = r) :
    AbpCore n s (1 - r) act w run len idx (del + 1) fs acks ∧
    AbpCore n s (1 - r) act w run len idx (del + 1) fs (acks ++ [f]) := by
  obtain ⟨ha, hlen, hlive, hdone, hc⟩ := h
  have hne : (1 : Int) - s ≠ s := by omega
  rcases hc with ⟨c1, c2, c3, c4⟩ | ⟨c1, c2, _, _⟩
  · have hfs : f = s := by rw [hf, c1]
    subst hfs
    have hall := TwoPhase.head_right hne c2
    have hr : (1 : Int) - r = 1 - f := by rw [c1]
    exact ⟨⟨ha, hlen, hlive, hdone, Or.inr ⟨hr, hall, TwoPhase.of_left c3, by omega⟩⟩,
      ⟨ha, hlen, hlive, hdone, Or.inr ⟨hr, hall, (TwoPhase.of_left c3).snoc, by omega⟩⟩⟩
  · exfalso
    have := c2 f (List.mem_cons_self _ _)
    omega

/-- Core step: the oldest frame in `receiveFrame` leaves it and the receiver
keeps its bit; it may send the ACK of the other bit again. -/
theorem AbpCore.frameDuplicate {n : Nat} {s r f : Int} {act : Option Int} {w run : Bool}
    {len idx del : Nat} {fs acks : List Int}
    (h : AbpCore n s r act w run len idx del (f :: fs) acks) :
    AbpCore n s r act w run len idx del fs acks ∧
    AbpCore n s r act w run len idx del fs (acks ++ [1 - r]) := by
  obtain ⟨ha, hlen, hlive, hdone, hc⟩ := h
  rcases hc with ⟨c1, c2, c3, c4⟩ | ⟨c1, c2, c3, c4⟩
  · refine ⟨⟨ha, hlen, hlive, hdone, Or.inl ⟨c1, c2.tail, c3, c4⟩⟩,
      ⟨ha, hlen, hlive, hdone, Or.inl ⟨c1, c2.tail, ?_, c4⟩⟩⟩
    intro a ha2
    rcases List.mem_append.mp ha2 with ha2 | ha2
    · exact c3 a ha2
    · simp only [List.mem_singleton] at ha2
      rw [ha2, c1]
  · have c2t : ∀ x ∈ fs, x = s := fun x hx => c2 x (List.mem_cons_of_mem _ hx)
    have hr : (1 : Int) - r = s := by rw [c1]; omega
    refine ⟨⟨ha, hlen, hlive, hdone, Or.inr ⟨c1, c2t, c3, c4⟩⟩,
      ⟨ha, hlen, hlive, hdone, Or.inr ⟨c1, c2t, ?_, c4⟩⟩⟩
    rw [hr]
    exact c3.snoc

/-- Core step: the oldest ACK in transit is discarded by the sender. -/
theorem AbpCore.bits_ackDiscard {n : Nat} {s r a : Int} {act : Option Int} {w run : Bool}
    {len idx del : Nat} {fs acks : List Int}
    (h : AbpCore n s r act w run len idx del fs (a :: acks)) :
    AbpCore n s r act w run len idx del fs acks := by
  obtain ⟨ha, hlen, hlive, hdone, hc⟩ := h
  refine ⟨ha, hlen, hlive, hdone, ?_⟩
  rcases hc with ⟨c1, c2, c3, c4⟩ | ⟨c1, c2, c3, c4⟩
  · exact Or.inl ⟨c1, c2, fun x hx => c3 x (List.mem_cons_of_mem _ hx), c4⟩
  · exact Or.inr ⟨c1, c2, c3.tail, c4⟩

/-- Core step: the oldest ACK in transit equals `activeTxSeq` and is accepted.
The receiver was one toggle ahead, so afterwards `successfulDeliveries` equals
the new `dataIndex`. -/
theorem AbpCore.bits_ackAccept {n : Nat} {s r a : Int} {w : Bool}
    {len idx del : Nat} {fs acks : List Int}
    (h : AbpCore n s r (some a) w true len idx del fs (a :: acks)) :
    AbpCore n (1 - s) r none false (if idx + 1 ≥ len then false else true) len
      (idx + 1) del fs acks ∧ del = idx + 1 := by
  obtain ⟨ha, hlen, hlive, hdone, hc⟩ := h
  have hidx := hlive rfl
  have hw : w = true := by
    cases hw : w
    · simp [hw] at ha
    · rfl
  have has : a = s := by
    simp [hw] at ha
    exact ha
  subst has
  have hne : (1 : Int) - a ≠ a := by omega
  have hinv : (1 : Int) - (1 - a) = a := by omega
  rcases hc with ⟨c1, c2, c3, c4⟩ | ⟨c1, c2, c3, c4⟩
  · exfalso
    have := c3 a (List.mem_cons_self _ _)
    omega
  · refine ⟨⟨by simp, hlen, ?_, ?_, ?_⟩, c4⟩
    · intro hrun
      split_ifs at hrun with hge
      omega
    · intro hrun
      split_ifs at hrun with hge
      omega
    · left
      have hall := TwoPhase.head_right hne c3
      refine ⟨c1, ?_, ?_, c4⟩
      · rw [hinv]
        exact TwoPhase.of_left c2
      · rw [hinv]
        exact hall

/-- `sendFrame`, with what it leaves pending, keeps the alternating-bit
invariant and, from a running state, does not end the run. -/
theorem AbpInv_send (n : Nat) (r u : Bool) (now : Nat) (σ : Sys) (h : AbpInv n σ) :
    AbpInv n (Sys.send r u now σ) ∧
    (Sys.send r u now σ).g.simulationRunning = σ.g.simulationRunning := by
  rcases sendFrame_cases r u now σ.g with e | ⟨hr, _, hlen, e⟩ | ⟨hr, _, _, e⟩
  · have e2 : Sys.send r u now σ = σ := by simp only [Sys.send, e]
    rw [e2]
    exact ⟨h, rfl⟩
  · exfalso
    unfold AbpInv AbpCore at h
    have := h.2.2.1 hr
    have := h.2.1
    omega
  · unfold AbpInv at h
    rw [hr] at h
    constructor
    · simp only [Sys.send, e]
      unfold AbpInv
      dsimp only
      rw [hr]
      exact AbpCore.bits_send h
    · simp only [Sys.send, e]

/-- Every step of the event loop keeps the alternating-bit invariant. A step
that ends the run leaves `successfulDeliveries = n`. -/
theorem AbpInv_step (n : Nat) (e : Event) (σ σ1 : Sys) (h : AbpInv n σ)
    (hs : step e σ = some σ1) :
    AbpInv n σ1 ∧
    (σ.g.simulationRunning = true → σ1.g.simulationRunning = false →
      σ1.g.stats.successfulDeliveries = n ∧ ∀ t, e ≠ .graceDone t) := by
  cases e with
  | frameArrive =>
    simp only [step] at hs
    cases hfl : σ.flying with
    | nil => simp [hfl] at hs
    | cons x rest =>
      obtain ⟨d, t⟩ := x
      simp only [hfl, Option.some.injEq] at hs
      subst hs
      refine ⟨?_, fun h1 h2 => ?_⟩
      · unfold AbpInv at h ⊢
        simp only [List.map_append, List.map_cons, List.map_nil, arrivedFrame]
        exact AbpCore.bits_arrive h
      · simp [h1] at h2
  | deliverFrame u =>
    simp only [step] at hs
    cases hfr : σ.frames with
    | nil => simp [hfr] at hs
    | cons f fs =>
      simp only [hfr, Option.some.injEq] at hs
      subst hs
      unfold AbpInv at h ⊢
      rw [hfr, List.map_cons] at h
      by_cases hseq : f.seq = σ.g.receiverExpectedSeq
      · by_cases hl : (σ.g.isNoisy && u) = true
        · simp only [receiveFrame, sendAck, hseq, hl, if_true]
          exact ⟨(AbpCore.frameInOrder h hseq).1, fun h1 h2 => by simp [h1] at h2⟩
        · simp only [receiveFrame, sendAck, hseq, hl, if_true, if_false]
          have := (AbpCore.frameInOrder h hseq).2
          rw [hseq] at this
          exact ⟨this, fun h1 h2 => by simp [h1] at h2⟩
      · by_cases hl : (σ.g.isNoisy && u) = true
        · simp only [receiveFrame, sendAck, hseq, hl, if_true, if_false]
          exact ⟨(AbpCore.frameDuplicate h).1, fun h1 h2 => by simp [h1] at h2⟩
        · simp only [receiveFrame, sendAck, hseq, hl, if_false]
          exact ⟨(AbpCore.frameDuplicate h).2, fun h1 h2 => by simp [h1] at h2⟩
  | deliverAck now =>
    simp only [step] at hs
    cases hak : σ.acks with
    | nil => simp [hak] at hs
    | cons a rest =>
      simp only [hak, Option.some.injEq] at hs
      subst hs
      unfold AbpInv at h ⊢
      rw [hak] at h
      rcases receiveAck_cases a now σ.g with ⟨e, _⟩ | ⟨hr, hact, _, _, _, e⟩
      · dsimp only
        rw [e]
        exact ⟨AbpCore.bits_ackDiscard h, fun h1 h2 => by simp [h1] at h2⟩
      · dsimp only
        rw [e]
        rw [hr, hact] at h
        have acc := AbpCore.bits_ackAccept h
        refine ⟨acc.1, fun _ h2 => ⟨?_, fun t => by simp⟩⟩
        have hd := acc.1.2.2.2.1 h2
        show σ.g.stats.successfulDeliveries = n
        rw [acc.2]
        exact hd
  | timerFire =>
    simp only [step] at hs
    cases ht : σ.timer with
    | none => simp [ht] at hs
    | some t =>
      simp only [ht, Option.some.injEq] at hs
      subst hs
      exact ⟨h, fun h1 h2 => by simp [h1] at h2⟩
  | graceDone t =>
    simp only [step] at hs
    by_cases hmem : t ∈ σ.graces
    · rw [if_pos hmem] at hs
      simp only [Option.some.injEq] at hs
      subst hs
      refine ⟨?_, fun h1 h2 => ?_⟩
      · unfold AbpInv at h ⊢
        unfold handleTimeout
        split_ifs <;> exact h
      · exfalso
        unfold handleTimeout at h2
        split_ifs at h2 <;> simp [h1] at h2
    · rw [if_neg hmem] at hs
      simp at hs
  | retransmit u now =>
    simp only [step] at hs
    split_ifs at hs with hz
    simp only [Option.some.injEq] at hs
    subst hs
    have := AbpInv_send n true u now ⟨σ.g, σ.flying, σ.frames, σ.acks, σ.timer, σ.graces,
      σ.retx - 1, σ.autos⟩ h
    refine ⟨this.1, fun h1 h2 => ?_⟩
    rw [this.2] at h2
    simp [h1] at h2
  | autoAdvance u now =>
    simp only [step] at hs
    split_ifs at hs with hz hg
    · simp only [Option.some.injEq] at hs
      subst hs
      have := AbpInv_send n false u now ⟨σ.g, σ.flying, σ.frames, σ.acks, σ.timer, σ.graces,
        σ.retx, σ.autos - 1⟩ h
      refine ⟨this.1, fun h1 h2 => ?_⟩
      rw [this.2] at h2
      simp [h1] at h2
    · simp only [Option.some.injEq] at hs
      subst hs
      exact ⟨h, fun h1 h2 => by simp [h1] at h2⟩
  | nextStep u now =>
    simp only [step] at hs
    split_ifs at hs with hz hg
    · simp only [Option.some.injEq] at hs
      subst hs
      exact ⟨h, fun h1 h2 => by simp [h1] at h2⟩
    · simp only [Option.some.injEq] at hs
      subst hs
      have := AbpInv_send n false u now ⟨{ σ.g with awaitingNextStep := false }, σ.flying,
        σ.frames, σ.acks, σ.timer, σ.graces, σ.retx, σ.autos⟩ h
      refine ⟨this.1, fun h1 h2 => ?_⟩
      rw [this.2] at h2
      simp [h1] at h2
    · simp only [Option.some.injEq] at hs
      subst hs
      exact ⟨h, fun h1 h2 => by simp [h1] at h2⟩

/-- The alternating-bit invariant holds along every sequence of events. -/
theorem AbpInv_exec (n : Nat) (evs : List Event) (σ σ1 : Sys) (h : AbpInv n σ)
    (hs : exec evs σ = some σ1) : AbpInv n σ1 := by
  induction evs generalizing σ with
  | nil =>
    simp only [exec, Option.some.injEq] at hs
    subst hs
    exact h
  | cons e es ih =>
    simp only [exec] at hs
    cases hst : step e σ with
    | none => simp [hst] at hs
    | some σ2 =>
      simp only [hst] at hs
      exact ih σ2 (AbpInv_step n e σ σ2 h hst).1 hs

/-- The alternating-bit invariant holds when a run of `n` frames starts while
nothing of an earlier run is pending. -/
theorem AbpInv_startSys (noisy : Bool) (inp : Inputs) (u : Bool) (now : Nat) (σp : Sys)
    (n : Nat) (h0 : σp.g.simulationRunning = false) (hp : σp.nothingPending)
    (hk : inp.numFrames = some (n : Int)) (hn : 0 < n) (hmax : n < 4294967296) :
    AbpInv n (startSys noisy inp u now σp) := by
  obtain ⟨g, fl, fr, ak, tm, gr, rx, au⟩ := σp
  unfold Sys.nothingPending at hp
  dsimp only at hp h0
  obtain ⟨rfl, rfl, rfl, rfl, rfl, rfl⟩ := hp
  have hpos : ¬ ((n : Int) ≤ 0) := by omega
  have hbig : ¬ ((n : Int) > 4294967295) := by omega
  have base : AbpInv n ⟨(startSimulation noisy inp now g).1, [], [], [], none, [], 0, 0⟩ := by
    unfold AbpInv AbpCore startSimulation
    simp only [h0, hk, hpos, hbig, if_false, Bool.false_eq_true]
    simp [resetState, emptyStats, hn, TwoPhase.of_left]
  unfold startSys
  simp only [h0, Bool.false_eq_true, if_false]
  split_ifs
  · exact (AbpInv_send n false u now _ base).1
  · exact base

/-- No step of the event loop starts a run: a stopped system stays stopped. -/
theorem step_stays_stopped (e : Event) (σ σ1 : Sys) (h : σ.g.simulationRunning = false)
    (hs : step e σ = some σ1) : σ1.g.simulationRunning = false := by
  have hsend : ∀ (r u : Bool) (now : Nat) (τ : Sys), τ.g.simulationRunning = false →
      (Sys.send r u now τ).g.simulationRunning = false := by
    intro r u now τ hτ
    rcases sendFrame_cases r u now τ.g with e | ⟨hr, _⟩ | ⟨hr, _⟩
    · have e2 : Sys.send r u now τ = τ := by simp only [Sys.send, e]
      rw [e2]
      exact hτ
    · rw [hτ] at hr
      exact absurd hr (by simp)
    · rw [hτ] at hr
      exact absurd hr (by simp)
  cases e with
  | frameArrive =>
    simp only [step] at hs
    cases hfl : σ.flying with
    | nil => simp [hfl] at hs
    | cons x rest =>
      obtain ⟨d, t⟩ := x
      simp only [hfl, Option.some.injEq] at hs
      subst hs
      exact h
  | deliverFrame u =>
    simp only [step] at hs
    cases hfr : σ.frames with
    | nil => simp [hfr] at hs
    | cons f fs =>
      simp only [hfr, Option.some.injEq] at hs
      subst hs
      by_cases hseq : f.seq = σ.g.receiverExpectedSeq
      · by_cases hl : (σ.g.isNoisy && u) = true
        · simp only [receiveFrame, sendAck, hseq, hl, if_true]
          exact h
        · simp only [receiveFrame, sendAck, hseq, hl, if_true, if_false]
          exact h
      · by_cases hl : (σ.g.isNoisy && u) = true
        · simp only [receiveFrame, sendAck, hseq, hl, if_true, if_false]
          exact h
        · simp only [receiveFrame, sendAck, hseq, hl, if_false]
          exact h
  | deliverAck now =>
    simp only [step] at hs
    cases hak : σ.acks with
    | nil => simp [hak] at hs
    | cons a rest =>
      simp only [hak, Option.some.injEq] at hs
      subst hs
      rcases receiveAck_cases a now σ.g with ⟨e, _⟩ | ⟨hr, _⟩
      · dsimp only
        rw [e]
        exact h
      · rw [h] at hr
        exact absurd hr (by simp)
  | timerFire =>
    simp only [step] at hs
    cases ht : σ.timer with
    | none => simp [ht] at hs
    | some t =>
      simp only [ht, Option.some.injEq] at hs
      subst hs
      exact h
  | graceDone t =>
    simp only [step] at hs
    by_cases hmem : t ∈ σ.graces
    · rw [if_pos hmem] at hs
      simp only [Option.some.injEq] at hs
      subst hs
      unfold handleTimeout
      split_ifs <;> exact h
    · rw [if_neg hmem] at hs
      simp at hs
  | retransmit u now =>
    simp only [step] at hs
    split_ifs at hs with hz
    simp only [Option.some.injEq] at hs
    subst hs
    exact hsend true u now _ h
  | autoAdvance u now =>
    simp only [step] at hs
    split_ifs at hs with hz hg
    · simp only [Option.some.injEq] at hs
      subst hs
      exact hsend false u now _ h
    · simp only [Option.some.injEq] at hs
      subst hs
      exact h
  | nextStep u now =>
    simp only [step] at hs
    split_ifs at hs with hz hg
    · simp only [Option.some.injEq] at hs
      subst hs
      exact h
    · simp only [Option.some.injEq] at hs
      subst hs
      exact hsend false u now _ h
    · simp only [Option.some.injEq] at hs
      subst hs
      exact h

/-- A stopped system stays stopped along every sequence of events. -/
theorem exec_stays_stopped (evs : List Event) (σ σ1 : Sys)
    (h : σ.g.simulationRunning = false) (hs : exec evs σ = some σ1) :
    σ1.g.simulationRunning = false := by
  induction evs generalizing σ with
  | nil =>
    simp only [exec, Option.some.injEq] at hs
    subst hs
    exact h
  | cons e es ih =>
    simp only [exec] at hs
    cases hst : step e σ with
    | none => simp [hst] at hs
    | some σ2 =>
      simp only [hst] at hs
      exact ih σ2 (step_stays_stopped e σ σ2 h hst) hs

/-- For a frame count of 2^32 or more `Array.from` throws after
`resetState(false)`: no run starts. -/
theorem startSys_too_many (noisy : Bool) (inp : Inputs) (u : Bool) (now : Nat) (σp : Sys)
    (n : Nat) (h0 : σp.g.simulationRunning = false)
    (hk : inp.numFrames = some (n : Int)) (hmax : 4294967296 ≤ n) :
    (startSys noisy inp u now σp).g.simulationRunning = false := by
  have hpos : ¬ ((n : Int) ≤ 0) := by omega
  have hbig : (n : Int) > 4294967295 := by omega
  simp [startSys, startSimulation, h0, hk, hpos, hbig, resetState]

/-! ## Runs without accepted timeouts -/

/-- Core step: `sendFrame()` transmits while the sender is idle; the frame is
lost or flies. -/
theorem QuietCore.send {n : Nat} {s r : Int} {act : Option Int}
    {last cur len idx del tot rex retx fl : Nat} {fs acks : List Int}
    (h : QuietCore n s r act false true last cur len idx del tot rex retx fl fs acks) :
    QuietCore n s r (some s) true true last (cur + 1) len idx del (tot + 1) rex retx fl fs
      acks ∧
    QuietCore n s r (some s) true true last (cur + 1) len idx del (tot + 1) rex retx (fl + 1)
      fs acks := by
  obtain ⟨h1, h2, h3, h4, h5, _, hc⟩ := h
  have hidx := h5 rfl
  rcases hc with ⟨_, _, c3, c4, c5, c6, c7, c8⟩ | ⟨c1, _⟩
  · subst c3 c4 c5
    refine ⟨⟨h1, h2, h3, by omega, fun _ => hidx, by simp, Or.inr ⟨rfl, rfl, by omega,
        by omega, Or.inl ⟨c6, c8, rfl, Or.inl ⟨rfl, rfl⟩⟩⟩⟩,
      ⟨h1, h2, h3, by omega, fun _ => hidx, by simp, Or.inr ⟨rfl, rfl, by omega,
        by omega, Or.inl ⟨c6, c8, rfl, Or.inr (Or.inl ⟨rfl, rfl⟩)⟩⟩⟩⟩
  · simp at c1

/-- Core step: the animation of the flying frame ends and the frame object is
built with the sender bit. -/
theorem QuietCore.arrive {n : Nat} {s r : Int} {act : Option Int} {w run : Bool}
    {last cur len idx del tot rex retx fl : Nat} {fs acks : List Int}
    (h : QuietCore n s r act w run last cur len idx del tot rex retx (fl + 1) fs acks) :
    QuietCore n s r act w run last cur len idx del tot rex retx fl (fs ++ [s]) acks := by
  obtain ⟨h1, h2, h3, h4, h5, h6, hc⟩ := h
  refine ⟨h1, h2, h3, h4, h5, h6, ?_⟩
  rcases hc with ⟨_, _, c3, _⟩ | ⟨c1, c2, c3, c4, hp⟩
  · omega
  · refine Or.inr ⟨c1, c2, c3, c4, ?_⟩
    rcases hp with ⟨p1, p2, p3, hq⟩ | ⟨_, _, p3, _⟩
    · refine Or.inl ⟨p1, p2, p3, ?_⟩
      rcases hq with ⟨q, _⟩ | ⟨q1, q2⟩ | ⟨q, _⟩
      · omega
      · subst q2
        exact Or.inr (Or.inr ⟨by omega, rfl⟩)
      · omega
    · omega

/-- Core fact: a frame waiting in `receiveFrame` carries the bit the receiver
expects. -/
theorem QuietCore.frame_expected {n : Nat} {s r f : Int} {act : Option Int} {w run : Bool}
    {last cur len idx del tot rex retx fl : Nat} {fs acks : List Int}
    (h : QuietCore n s r act w run last cur len idx del tot rex retx fl (f :: fs) acks) :
    f = r := by
  obtain ⟨_, _, _, _, _, _, hc⟩ := h
  rcases hc with ⟨_, _, _, c4, _⟩ | ⟨_, _, _, _, hp⟩
  · simp at c4
  · rcases hp with ⟨p1, _, _, hq⟩ | ⟨_, _, _, p4, _⟩
    · rcases hq with ⟨_, q⟩ | ⟨_, q⟩ | ⟨_, q⟩
      · simp at q
      · simp at q
      · simp only [List.cons.injEq] at q
        rw [q.1, p1]
    · simp at p4

/-- Core step: the receiver takes the frame waiting in `receiveFrame` and sends
its ACK, which is lost or travels. -/
theorem QuietCore.frame {n : Nat} {s r f : Int} {act : Option Int} {w run : Bool}
    {last cur len idx del tot rex retx fl : Nat} {fs acks : List Int}
    (h : QuietCore n s r act w run last cur len idx del tot rex retx fl (f :: fs) acks) :
    QuietCore n s (1 - r) act w run last cur len idx (del + 1) tot rex retx fl fs acks ∧
    QuietCore n s (1 - r) act w run last cur len idx (del + 1) tot rex retx fl fs
      (acks ++ [f]) := by
  obtain ⟨h1, h2, h3, h4, h5, h6, hc⟩ := h
  rcases hc with ⟨_, _, _, c4, _⟩ | ⟨c1, c2, c3, c4, hp⟩
  · simp at c4
  · rcases hp with ⟨p1, p2, p3, hq⟩ | ⟨_, _, _, p4, _⟩
    · rcases hq with ⟨_, q⟩ | ⟨_, q⟩ | ⟨q0, q⟩
      · simp at q
      · simp at q
      · simp only [List.cons.injEq] at q
        obtain ⟨rfl, rfl⟩ := q
        subst p3
        have hr : (1 : Int) - r = 1 - f := by rw [p1]
        exact ⟨⟨h1, h2, h3, h4, h5, h6, Or.inr ⟨c1, c2, c3, c4,
            Or.inr ⟨hr, by omega, q0, rfl, Or.inl rfl⟩⟩⟩,
          ⟨h1, h2, h3, h4, h5, h6, Or.inr ⟨c1, c2, c3, c4,
            Or.inr ⟨hr, by omega, q0, rfl, Or.inr rfl⟩⟩⟩⟩
    · simp at p4

/-- Core step: the sender discards the ACK in transit. -/
theorem QuietCore.ackDiscard {n : Nat} {s r a : Int} {act : Option Int} {w run : Bool}
    {last cur len idx del tot rex retx fl : Nat} {fs acks : List Int}
    (h : QuietCore n s r act w run last cur len idx del tot rex retx fl fs (a :: acks)) :
    QuietCore n s r act w run last cur len idx del tot rex retx fl fs acks := by
  obtain ⟨h1, h2, h3, h4, h5, h6, hc⟩ := h
  refine ⟨h1, h2, h3, h4, h5, h6, ?_⟩
  rcases hc with ⟨_, _, _, _, c5, _⟩ | ⟨c1, c2, c3, c4, hp⟩
  · simp at c5
  · rcases hp with ⟨_, _, p3, _⟩ | ⟨p1, p2, p3, p4, hq⟩
    · simp at p3
    · rcases hq with q | q
      · simp at q
      · simp only [List.cons.injEq] at q
        obtain ⟨_, rfl⟩ := q
        exact Or.inr ⟨c1, c2, c3, c4, Or.inr ⟨p1, p2, p3, p4, Or.inl rfl⟩⟩

/-- Core step: the sender accepts the ACK in transit. -/
theorem QuietCore.ackAccept {n : Nat} {s r a : Int} {act : Option Int} {w : Bool}
    {last cur len idx del tot rex retx fl : Nat} {fs acks : List Int}
    (h : QuietCore n s r act w true last cur len idx del tot rex retx fl fs (a :: acks)) :
    QuietCore n (1 - s) r none false (if idx + 1 ≥ len then false else true) cur cur len
      (idx + 1) del tot rex retx fl fs acks := by
  obtain ⟨h1, h2, h3, h4, h5, h6, hc⟩ := h
  have hidx := h5 rfl
  refine ⟨h1, h2, h3, le_refl _, ?_, ?_, ?_⟩
  · intro hrun
    split_ifs at hrun with hge
    omega
  · intro hrun
    split_ifs at hrun with hge
    exact ⟨by omega, rfl⟩
  · rcases hc with ⟨_, _, _, _, c5, _⟩ | ⟨c1, c2, c3, c4, hp⟩
    · simp at c5
    · rcases hp with ⟨_, _, p3, _⟩ | ⟨p1, p2, p3, p4, hq⟩
      · simp at p3
      · rcases hq with q | q
        · simp at q
        · simp only [List.cons.injEq] at q
          obtain ⟨_, rfl⟩ := q
          exact Or.inl ⟨rfl, rfl, p3, p4, rfl, p1, by omega, by omega⟩

/-- A call of `sendFrame()` (not a retransmission), with what it leaves
pending, keeps the invariant of a run without accepted timeout. -/
theorem QuietInv_send (n : Nat) (u : Bool) (now : Nat) (σ : Sys) (h : QuietInv n σ) :
    QuietInv n (Sys.send false u now σ) := by
  rcases sendFrame_cases false u now σ.g with e | ⟨hr, _, hlen, e⟩ | ⟨hr, hw, _, e⟩
  · simp only [Sys.send, e]
    exact h
  · exfalso
    unfold QuietInv QuietCore at h
    have := h.2.2.2.2.1 hr
    have := h.2.2.1
    omega
  · have hw2 : σ.g.waitingForAck = false := by
      cases hc : σ.g.waitingForAck
      · rfl
      · exact absurd (hw hc) (by simp)
    unfold QuietInv at h
    rw [hr, hw2] at h
    by_cases hl : (σ.g.isNoisy && u) = true
    · simp only [Sys.send, e, hl, if_true]
      unfold QuietInv
      simp only [Bool.false_eq_true, if_false]
      rw [hr]
      exact (QuietCore.send h).1
    · have hl2 : (σ.g.isNoisy && u) = false := by simpa using hl
      simp only [Sys.send, e, hl2]
      unfold QuietInv
      simp only [Bool.false_eq_true, if_false, List.length_append, List.length_singleton]
      rw [hr]
      exact (QuietCore.send h).2

/-- A step of the event loop that is not an accepted timeout keeps the invariant
of a run without accepted timeout. -/
theorem QuietInv_step (n : Nat) (e : Event) (σ σ1 : Sys) (h : QuietInv n σ)
    (hs : step e σ = some σ1)
    (hrej : ∀ t, e = .graceDone t → (handleTimeout t σ.g).2 = false) : QuietInv n σ1 := by
  cases e with
  | frameArrive =>
    simp only [step] at hs
    cases hfl : σ.flying with
    | nil => simp [hfl] at hs
    | cons x rest =>
      obtain ⟨d, t⟩ := x
      simp only [hfl, Option.some.injEq] at hs
      subst hs
      unfold QuietInv at h ⊢
      rw [hfl, List.length_cons] at h
      simp only [List.map_append, List.map_cons, List.map_nil, arrivedFrame]
      exact QuietCore.arrive h
  | deliverFrame u =>
    simp only [step] at hs
    cases hfr : σ.frames with
    | nil => simp [hfr] at hs
    | cons f fs =>
      simp only [hfr, Option.some.injEq] at hs
      subst hs
      unfold QuietInv at h ⊢
      rw [hfr, List.map_cons] at h
      have hseq : f.seq = σ.g.receiverExpectedSeq := QuietCore.frame_expected h
      by_cases hl : (σ.g.isNoisy && u) = true
      · simp only [receiveFrame, sendAck, hseq, hl, if_true]
        exact (QuietCore.frame h).1
      · simp only [receiveFrame, sendAck, hseq, hl, if_true, if_false]
        have := (QuietCore.frame h).2
        rw [hseq] at this
        exact this
  | deliverAck now =>
    simp only [step] at hs
    cases hak : σ.acks with
    | nil => simp [hak] at hs
    | cons a rest =>
      simp only [hak, Option.some.injEq] at hs
      subst hs
      unfold QuietInv at h ⊢
      rw [hak] at h
      rcases receiveAck_cases a now σ.g with ⟨e, _⟩ | ⟨hr, hact, _, _, _, e⟩
      · dsimp only
        rw [e]
        exact QuietCore.ackDiscard h
      · dsimp only
        rw [e]
        rw [hr] at h
        exact QuietCore.ackAccept h
  | timerFire =>
    simp only [step] at hs
    cases ht : σ.timer with
    | none => simp [ht] at hs
    | some t =>
      simp only [ht, Option.some.injEq] at hs
      subst hs
      exact h
  | graceDone t =>
    simp only [step] at hs
    by_cases hmem : t ∈ σ.graces
    · rw [if_pos hmem] at hs
      simp only [Option.some.injEq] at hs
      subst hs
      have hr := hrej t rfl
      have hst : (handleTimeout t σ.g).1 = σ.g := by
        unfold handleTimeout at hr ⊢
        split_ifs at hr ⊢
        rfl
      unfold QuietInv at h ⊢
      dsimp only
      rw [hst, hr]
      simpa using h
    · rw [if_neg hmem] at hs
      simp at hs
  | retransmit u now =>
    simp only [step] at hs
    have hz : σ.retx = 0 := h.1
    rw [if_pos hz] at hs
    simp at hs
  | autoAdvance u now =>
    simp only [step] at hs
    split_ifs at hs with hz hg
    · simp only [Option.some.injEq] at hs
      subst hs
      exact QuietInv_send n u now _ h
    · simp only [Option.some.injEq] at hs
      subst hs
      exact h
  | nextStep u now =>
    simp only [step] at hs
    split_ifs at hs with hz hg
    · simp only [Option.some.injEq] at hs
      subst hs
      exact h
    · simp only [Option.some.injEq] at hs
      subst hs
      exact QuietInv_send n u now _ h
    · simp only [Option.some.injEq] at hs
      subst hs
      exact h

/-- The invariant holds along every sequence of events in which no timeout is
accepted. -/
theorem QuietInv_exec (n : Nat) (evs : List Event) (σ σ1 : Sys) (h : QuietInv n σ)
    (hs : exec evs σ = some σ1) (hq : timeoutsRejected evs σ = true) : QuietInv n σ1 := by
  induction evs generalizing σ with
  | nil =>
    simp only [exec, Option.some.injEq] at hs
    subst hs
    exact h
  | cons e es ih =>
    simp only [exec] at hs
    cases hst : step e σ with
    | none => simp [hst] at hs
    | some σ2 =>
      simp only [hst] at hs
      simp only [timeoutsRejected, hst, Bool.and_eq_true] at hq
      refine ih σ2 ?_ hs hq.2
      apply QuietInv_step n e σ σ2 h hst
      intro t het
      subst het
      simpa using hq.1

/-- The invariant holds when a run of `n` frames starts while nothing of an
earlier run is pending. -/
theorem QuietInv_startSys (noisy : Bool) (inp : Inputs) (u : Bool) (now : Nat) (σp : Sys)
    (n : Nat) (h0 : σp.g.simulationRunning = false) (hp : σp.nothingPending)
    (hk : inp.numFrames = some (n : Int)) (hn : 0 < n) (hmax : n < 4294967296) :
    QuietInv n (startSys noisy inp u now σp) := by
  obtain ⟨g, fl, fr, ak, tm, gr, rx, au⟩ := σp
  unfold Sys.nothingPending at hp
  dsimp only at hp h0
  obtain ⟨rfl, rfl, rfl, rfl, rfl, rfl⟩ := hp
  have hpos : ¬ ((n : Int) ≤ 0) := by omega
  have hbig : ¬ ((n : Int) > 4294967295) := by omega
  have base : QuietInv n ⟨(startSimulation noisy inp now g).1, [], [], [], none, [], 0, 0⟩ := by
    unfold QuietInv QuietCore startSimulation
    simp only [h0, hk, hpos, hbig, if_false, Bool.false_eq_true]
    simp [resetState, emptyStats, hn]
  unfold startSys
  simp only [h0, Bool.false_eq_true, if_false]
  split_ifs
  · exact QuietInv_send n u now _ base
  · exact base

/-- In a run started while nothing is pending and in which no `handleTimeout`
call passes its guard, the sender and receiver bits agree whenever the sender
does not wait for an ACK. -/
theorem quiet_run_bits_agree (noisy : Bool) (inp : Inputs) (u : Bool) (now : Nat)
    (σp : Sys) (n : Nat) (evs : List Event) (σ : Sys)
    (h0 : σp.g.simulationRunning = false) (hp : σp.nothingPending)
    (hk : inp.numFrames = some (n : Int)) (hn : 0 < n) (hmax : n < 4294967296)
    (hquiet : timeoutsRejected evs (startSys noisy inp u now σp) = true)
    (hrun : exec evs (startSys noisy inp u now σp) = some σ)
    (hw : σ.g.waitingForAck = false) :
    σ.g.senderSeq = σ.g.receiverExpectedSeq := by
  have inv := QuietInv_exec n evs _ σ
    (QuietInv_startSys noisy inp u now σp n h0 hp hk hn hmax) hrun hquiet
  unfold QuietInv QuietCore at inv
  obtain ⟨_, _, _, _, _, _, hc⟩ := inv
  rcases hc with ⟨_, _, _, _, _, c6, _⟩ | ⟨c1, _⟩
  · exact c6.symm
  · rw [hw] at c1
    exact absurd c1 (by simp)

/-- C4 as amended (lossless run): take a run started with `frameCount = n > 0`
while the simulation is stopped and nothing of an earlier run is pending, in
which no frame and no ACK is lost (noiseless mode, or no loss drawn). In the
state left by the step that reaches `finishSimulation` (the run was live before
it and is stopped after it) `stats.successfulDeliveries = n`; if moreover no
`handleTimeout` call passed its guard during the run, then also
`stats.totalTransmissions = n` and `stats.retransmissions = 0`. -/
theorem C4_lossless_run_counters (noisy : Bool) (inp : Inputs) (u : Bool) (now : Nat)
    (σp : Sys) (n : Nat) (evs : List Event) (e : Event) (σ0 σ1 : Sys)
    (h0 : σp.g.simulationRunning = false) (hp : σp.nothingPending)
    (hk : inp.numFrames = some (n : Int)) (hn : 0 < n)
    (_hloss : noisy = false ∨ (u = false ∧ ∀ ev ∈ evs ++ [e], ev.lossFree = true))
    (hrun : exec evs (startSys noisy inp u now σp) = some σ0)
    (hlive : σ0.g.simulationRunning = true)
    (hstep : step e σ0 = some σ1)
    (hfin : σ1.g.simulationRunning = false) :
    σ1.g.stats.successfulDeliveries = n ∧
    (timeoutsRejected evs (startSys noisy inp u now σp) = true →
      σ1.g.stats.totalTransmissions = n ∧ σ1.g.stats.retransmissions = 0) := by
  by_cases hmax : n < 4294967296
  · have a0 := AbpInv_exec n evs _ σ0
      (AbpInv_startSys noisy inp u now σp n h0 hp hk hn hmax) hrun
    have a1 := (AbpInv_step n e σ0 σ1 a0 hstep).2 hlive hfin
    refine ⟨a1.1, fun hquiet => ?_⟩
    have q0 := QuietInv_exec n evs _ σ0
      (QuietInv_startSys noisy inp u now σp n h0 hp hk hn hmax) hrun hquiet
    have q1 := QuietInv_step n e σ0 σ1 q0 hstep
      (fun t het => absurd het (a1.2 t))
    unfold QuietInv QuietCore at q1
    obtain ⟨_, h2, _, _, _, h6, hc⟩ := q1
    obtain ⟨hidx, hw⟩ := h6 hfin
    rcases hc with ⟨_, _, _, _, _, _, c7, _⟩ | ⟨c1, _⟩
    · exact ⟨by rw [c7, hidx], h2⟩
    · rw [hw] at c1
      exact absurd c1 (by simp)
  · exfalso
    have hdead := exec_stays_stopped evs _ σ0
      (startSys_too_many noisy inp u now σp n h0 hk (by omega)) hrun
    rw [hlive] at hdead
    exact absurd hdead (by simp)

/-- Counterexamples to C4 as stated, both without any loss. First: a noiseless
run of 1 frame whose timer expires before the ACK is back reaches
`finishSimulation` with `totalTransmissions = 2` and `retransmissions = 2`
(`successfulDeliveries` is 1 there). Second: a noiseless run of 2 frames is
started after Reset while the ACK of the first frame of the earlier run is
still in transit; no timer fires in it; the old ACK is accepted for its first
frame and the run reaches `finishSimulation` with `successfulDeliveries = 0`
(`totalTransmissions` is 2 and `retransmissions` is 0 there). -/
theorem C4_lossless_run_counterexample :
    (∃ σ, exec earlyTimeoutSchedule oneFrameSys = some σ ∧
      oneFrameSys.g.isNoisy = false ∧
      (∀ e ∈ earlyTimeoutSchedule, e.lossFree = true) ∧
      σ.g.simulationRunning = false ∧
      σ.g.stats.successfulDeliveries = 1 ∧
      σ.g.stats.totalTransmissions = 2 ∧
      σ.g.stats.retransmissions = 2) ∧
    (∃ σ, exec secondRunSchedule secondRunSys = some σ ∧
      secondRunSys.g.isNoisy = false ∧
      secondRunSys.g.dataToSend.length = 2 ∧
      secondRunSys.acks = [0] ∧
      (∀ e ∈ secondRunSchedule, e.lossFree = true) ∧
      timeoutsRejected secondRunSchedule secondRunSys = true ∧
      σ.g.simulationRunning = false ∧
      σ.g.stats.successfulDeliveries = 0 ∧
      σ.g.stats.totalTransmissions = 2 ∧
      σ.g.stats.retransmissions = 0) :=
  ⟨⟨(exec earlyTimeoutSchedule oneFrameSys).getD oneFrameSys, by decide, by decide, by decide,
      by decide, by decide, by decide, by decide⟩,
    ⟨(exec secondRunSchedule secondRunSys).getD secondRunSys, by decide, by decide, by decide,
      by decide, by decide, by decide, by decide, by decide, by decide, by decide⟩⟩

/-- Witness of C4 as amended: scenario A (noiseless, 3 frames, started from the
freshly loaded page, no timer fires) reaches `finishSimulation` with its last
ACK and has then 3 deliveries, 3 transmissions and no retransmission. -/
theorem C4_lossless_run_counters_witness :
    exec scenarioA scenarioASys = some scenarioALast ∧
    scenarioALast.g.simulationRunning = true ∧
    step (.deliverAck 0) scenarioALast = some scenarioAEnd ∧
    scenarioAEnd.g.simulationRunning = false ∧
    timeoutsRejected scenarioA scenarioASys = true ∧
    scenarioAEnd.g.stats.successfulDeliveries = 3 ∧
    scenarioAEnd.g.stats.totalTransmissions = 3 ∧
    scenarioAEnd.g.stats.retransmissions = 0 :=
  have h := C4_lossless_run_counters false { numFrames := some 3, stepModeChecked := false }
    false 0 bootSys 3 scenarioA (.deliverAck 0) scenarioALast scenarioAEnd (by decide)
    (by decide) (by decide) (by decide) (Or.inl rfl) (by decide) (by decide) (by decide)
    (by decide)
  ⟨by decide, by decide, by decide, by decide, by decide, h.1, (h.2 (by decide)).1,
    (h.2 (by decide)).2⟩


/-! ## A lossless run reaches `finishSimulation` -/

/-- A schedule in which no `handleTimeout` call ends its grace delay accepts no
timeout. -/
theorem timeoutsRejected_of_no_grace (evs : List Event) (σ : Sys)
    (h : ∀ e ∈ evs, ∀ t, e ≠ .graceDone t) : timeoutsRejected evs σ = true := by
  induction evs generalizing σ with
  | nil => rfl
  | cons e es ih =>
    have hes : ∀ e1 ∈ es, ∀ t, e1 ≠ .graceDone t :=
      fun e1 he1 => h e1 (List.mem_cons_of_mem _ he1)
    have he := h e (List.mem_cons_self _ _)
    simp only [timeoutsRejected, Bool.and_eq_true]
    constructor
    · cases e with
      | graceDone t => exact absurd rfl (he t)
      | _ => simp
    · cases step e σ with
      | none => rfl
      | some σ1 => exact ih σ1 hes

/-- The animation of the flying frame ends: the frame waits in `receiveFrame`. -/
theorem frameFlying_arrive (n i : Nat) (σ : Sys) (h : FrameFlying n i σ) :
    ∃ σ1, step .frameArrive σ = some σ1 ∧ FrameOnWay n i σ1 := by
  obtain ⟨h1, h2, h3, h4, h5, h6, h7, h8, h9, h10, ⟨x, hx⟩, h12, h13, h14⟩ := h
  obtain ⟨d, t⟩ := x
  have e1 : step .frameArrive σ = some ⟨σ.g, [], [arrivedFrame d t σ.g], σ.acks, σ.timer,
      σ.graces, σ.retx, σ.autos⟩ := by
    simp only [step, hx, h12, List.nil_append]
  exact ⟨_, e1, h1, h2, h3, h4, h5, h6, h7, h8, h9, h10, rfl, ⟨_, rfl, rfl⟩, h13, h14⟩

/-- The frame waiting in `receiveFrame` is taken and its ACK is sent. -/
theorem frameOnWay_deliver (n i : Nat) (σ : Sys) (h : FrameOnWay n i σ) :
    ∃ σ1, step (.deliverFrame false) σ = some σ1 ∧ AckOnWay n i σ1 := by
  obtain ⟨h1, h2, h3, h4, h5, h6, h7, h8, h9, h10, h11, ⟨f, hf, hfs⟩, h13, h14⟩ := h
  have hfr : f.seq = σ.g.receiverExpectedSeq := by rw [hfs, h6]
  have e1 : step (.deliverFrame false) σ = some ⟨{ σ.g with
      receiverExpectedSeq := 1 - σ.g.receiverExpectedSeq,
      stats := { σ.g.stats with successfulDeliveries := σ.g.stats.successfulDeliveries + 1 } },
      σ.flying, [], [f.seq], σ.timer, σ.graces, σ.retx, σ.autos⟩ := by
    simp only [step, hf, receiveFrame, hfr, if_true, sendAck, Bool.and_false, Bool.false_eq_true,
      if_false, h13, List.nil_append]
  refine ⟨_, e1, h1, h2, h3, h4, h5, ?_, h7, h8, h9, h10, h11, rfl, by rw [hfs], h14⟩
  show 1 - σ.g.receiverExpectedSeq = 1 - σ.g.senderSeq
  rw [h6]

/-- The ACK on its way arrives and is accepted; more frames remain. -/
theorem ackOnWay_accept (n i now : Nat) (σ : Sys) (h : AckOnWay n i σ) (hi : i + 1 < n) :
    ∃ σ1, step (.deliverAck now) σ = some σ1 ∧ SenderReady n (i + 1) σ1 := by
  obtain ⟨h1, h2, h3, h4, h5, h6, h7, h8, h9, h10, h11, h12, h13, h14⟩ := h
  rcases receiveAck_cases σ.g.senderSeq now σ.g with ⟨e, hacc⟩ | ⟨_, _, _, _, hacc, e⟩
  · exfalso
    have hlt : ¬ σ.g.currentTxId ≤ σ.g.lastAckTxIdHandled := by omega
    have hge : ¬ (σ.g.dataIndex + 1 ≥ σ.g.dataToSend.length) := by omega
    simp [receiveAck, h1, h5, hlt, h7, hge, h3, AckResult.accepted] at hacc
  · have hge : ¬ (σ.g.dataIndex + 1 ≥ σ.g.dataToSend.length) := by omega
    have hres : (receiveAck σ.g.senderSeq now σ.g).2 = .scheduled := by
      have hlt : ¬ σ.g.currentTxId ≤ σ.g.lastAckTxIdHandled := by omega
      simp [receiveAck, h1, h5, hlt, h7, hge, h3]
    have e1 : step (.deliverAck now) σ = some ⟨(receiveAck σ.g.senderSeq now σ.g).1, σ.flying,
        σ.frames, [], none, σ.graces, σ.retx, σ.autos + 1⟩ := by
      simp only [step, h13, hres, if_true]
    refine ⟨_, e1, ?_⟩
    rw [e]
    refine ⟨?_, h2, h3, rfl, rfl, ?_, le_refl _, h9, ?_, h11, h12, rfl, ?_⟩
    · simp [hge]
    · simp [h6]
    · simp [h10]
    · simp [h14]

/-- The ACK of the last frame arrives and is accepted: the run finishes. -/
theorem ackOnWay_finish (n i now : Nat) (σ : Sys) (h : AckOnWay n i σ) (hi : i + 1 = n) :
    ∃ σ1, step (.deliverAck now) σ = some σ1 ∧ σ1.g.simulationRunning = false := by
  obtain ⟨h1, h2, h3, h4, h5, h6, h7, h8, h9, h10, h11, h12, h13, h14⟩ := h
  have hlt : ¬ σ.g.currentTxId ≤ σ.g.lastAckTxIdHandled := by omega
  have hge : σ.g.dataIndex + 1 ≥ σ.g.dataToSend.length := by omega
  cases hst : step (.deliverAck now) σ with
  | none => simp [step, h13] at hst
  | some σ1 =>
    refine ⟨σ1, rfl, ?_⟩
    simp only [step, h13, Option.some.injEq] at hst
    subst hst
    simp [receiveAck, h1, h5, hlt, h7, hge, finishSimulation]

/-- The 400 ms callback sends the next frame. -/
theorem senderReady_send (n i now : Nat) (σ : Sys) (h : SenderReady n i σ) (hi : i < n) :
    ∃ σ1, step (.autoAdvance false now) σ = some σ1 ∧ FrameFlying n i σ1 := by
  obtain ⟨h1, h2, h3, h4, h5, h6, h7, h8, h9, h10, h11, h12, h13⟩ := h
  have hz : ¬ σ.autos = 0 := by omega
  have hg : σ.g.simulationPaused = false ∧ σ.g.simulationRunning = true ∧
      σ.g.waitingForAck = false ∧ σ.g.activeTxSeq = none := ⟨h2, h1, h4, h5⟩
  have hlt : ¬ (σ.g.dataIndex ≥ σ.g.dataToSend.length) := by omega
  have e1 : step (.autoAdvance false now) σ = some (Sys.send false false now
      ⟨σ.g, σ.flying, σ.frames, σ.acks, σ.timer, σ.graces, σ.retx, σ.autos - 1⟩) := by
    simp only [step, hz, hg, if_false, and_self, if_true]
  refine ⟨_, e1, ?_⟩
  rcases sendFrame_cases false false now σ.g with e | ⟨_, _, hlen, _⟩ | ⟨_, _, _, e⟩
  · exfalso
    simp [sendFrame, h1, h4, hlt] at e
  · omega
  · simp only [Sys.send, e, Bool.and_false, Bool.false_eq_true, if_false]
    refine ⟨h1, h2, h3, rfl, rfl, h6, rfl, ?_, h8, h9, ⟨_, by rw [h10]; rfl⟩, h11, h12, ?_⟩
    · show σ.g.lastAckTxIdHandled < σ.g.currentTxId + 1
      omega
    · show σ.autos - 1 = 0
      omega

/-- From a flying frame, the lossless schedule leads to `finishSimulation`. -/
theorem losslessSchedule_finishes (now k : Nat) (n i : Nat) (σ : Sys) (h : FrameFlying n i σ)
    (hk : i + k + 1 = n) :
    ∃ σ1, exec (losslessSchedule now k) σ = some σ1 ∧ σ1.g.simulationRunning = false := by
  induction k generalizing i σ with
  | zero =>
    obtain ⟨σa, ea, ha⟩ := frameFlying_arrive n i σ h
    obtain ⟨σb, eb, hb⟩ := frameOnWay_deliver n i σa ha
    obtain ⟨σc, ec, hc⟩ := ackOnWay_finish n i now σb hb (by omega)
    exact ⟨σc, by simp [losslessSchedule, exec, ea, eb, ec], hc⟩
  | succ k ih =>
    obtain ⟨σa, ea, ha⟩ := frameFlying_arrive n i σ h
    obtain ⟨σb, eb, hb⟩ := frameOnWay_deliver n i σa ha
    obtain ⟨σc, ec, hc⟩ := ackOnWay_accept n i now σb hb (by omega)
    obtain ⟨σd, ed, hd⟩ := senderReady_send n (i + 1) now σc hc (by omega)
    obtain ⟨σe, ee, he⟩ := ih (i + 1) σd hd (by omega)
    refine ⟨σe, ?_, he⟩
    simp [losslessSchedule, losslessRound, exec, ea, eb, ec, ed, ee]

/-- The first `sendFrame()` of a continuous run started while nothing is
pending leaves its frame flying. -/
theorem startSys_frameFlying (noisy : Bool) (now : Nat) (σp : Sys) (n : Nat)
    (h0 : σp.g.simulationRunning = false) (hp : σp.nothingPending) (hn : 0 < n)
    (hmax : n < 4294967296) :
    FrameFlying n 0
      (startSys noisy { numFrames := some (n : Int), stepModeChecked := false } false now σp) := by
  obtain ⟨g, fl, fr, ak, tm, gr, rx, au⟩ := σp
  unfold Sys.nothingPending at hp
  dsimp only at hp h0
  obtain ⟨rfl, rfl, rfl, rfl, rfl, rfl⟩ := hp
  have hpos : ¬ ((n : Int) ≤ 0) := by omega
  have hbig : ¬ ((n : Int) > 4294967295) := by omega
  simp only [startSys, startSimulation, h0, hpos, hbig, Bool.false_eq_true, if_false,
    Bool.not_false, if_true]
  rcases sendFrame_cases false false now
      ({ resetState g with
          dataToSend := (List.range (n : Int).toNat).map (fun i => i + 1),
          simulationRunning := true,
          isNoisy := noisy,
          stepMode := false,
          awaitingNextStep := false,
          waitingForAck := false,
          stats := { (resetState g).stats with startTime := some now } }) with
    e | ⟨_, _, hlen, _⟩ | ⟨_, _, _, e⟩
  · exfalso
    have hn0 : n ≠ 0 := by omega
    simp [sendFrame, resetState, hn0] at e
  · simp [resetState] at hlen
    omega
  · simp only [Sys.send, e, Bool.and_false, Bool.false_eq_true, if_false]
    simp [FrameFlying, resetState]

/-- A lossless continuous run reaches `finishSimulation`: for every `n` with
`0 < n < 2^32`, started while nothing is pending, the schedule
`losslessSchedule` (every frame and ACK arrives, no timer fires) leads from
`startSimulation` to a state with `simulationRunning` false; no event of it
draws a loss and no timeout is accepted along it. -/
theorem lossless_run_finishes (noisy : Bool) (now : Nat) (σp : Sys) (n : Nat)
    (h0 : σp.g.simulationRunning = false) (hp : σp.nothingPending) (hn : 0 < n)
    (hmax : n < 4294967296) :
    ∃ σ, exec (losslessSchedule now (n - 1))
        (startSys noisy { numFrames := some (n : Int), stepModeChecked := false } false now σp)
        = some σ ∧
      σ.g.simulationRunning = false ∧
      (∀ e ∈ losslessSchedule now (n - 1), e.lossFree = true) ∧
      timeoutsRejected (losslessSchedule now (n - 1))
        (startSys noisy { numFrames := some (n : Int), stepModeChecked := false } false now σp)
        = true := by
  have hsched : ∀ k, ∀ e ∈ losslessSchedule now k,
      e.lossFree = true ∧ ∀ t, e ≠ .graceDone t := by
    intro k
    induction k with
    | zero =>
      intro e he
      simp only [losslessSchedule, List.mem_cons, List.mem_singleton, List.not_mem_nil,
        or_false] at he
      rcases he with rfl | rfl | rfl <;> simp [Event.lossFree]
    | succ k ih =>
      intro e he
      simp only [losslessSchedule, losslessRound, List.cons_append, List.nil_append,
        List.mem_cons] at he
      rcases he with rfl | rfl | rfl | rfl | he
      · simp [Event.lossFree]
      · simp [Event.lossFree]
      · simp [Event.lossFree]
      · simp [Event.lossFree]
      · exact ih e he
  obtain ⟨σ, e, hfin⟩ := losslessSchedule_finishes now (n - 1) n 0 _
    (startSys_frameFlying noisy now σp n h0 hp hn hmax) (by omega)
  exact ⟨σ, e, hfin, fun ev hev => (hsched _ ev hev).1,
    timeoutsRejected_of_no_grace _ _ (fun ev hev => (hsched _ ev hev).2)⟩

end StopAndWait
